import Mathlib

/-!
# Verification of the Wan2.1 Gradio application shell (`App.py`)

A shallow embedding of the orchestration layer of the Wan2.1 video-generation
application: the auto-crop/resize transforms, the VRAM dispatch table, the
pipeline cache, the generation and batch loops with cooperative cancellation,
seed selection, and the sequential output-file naming scheme.

Strings from the Python side are modelled as `List Char`; machine floats used
only as exact ratios are modelled as `ℚ` with explicit truncation where the
code applies `int(...)`.
-/

set_option autoImplicit false

namespace Wan

/-! ## Python string primitives

`List Char` models Python `str`.  The helpers below mirror CPython behaviour
for the ASCII inputs the application manipulates. -/

/-- ASCII whitespace stripped by `str.strip()`. -/
def isPyWs (c : Char) : Bool :=
  c = ' ' || c = '\t' || c = '\n' || c = '\x0d' || c = '\x0b' || c = '\x0c'

/-- `str.strip()`: drop whitespace from both ends. -/
def pyStrip (s : List Char) : List Char :=
  ((s.dropWhile isPyWs).reverse.dropWhile isPyWs).reverse

/-- Numeric value of an ASCII digit character. -/
def digitVal (c : Char) : ℕ := c.toNat - 48

/-- Decimal-digit tail of an integer literal, as accepted by Python `int()`:
digits, optionally separated by single underscores (each underscore must sit
between two digits).  `acc` is the value of the digits consumed so far. -/
def digTail (acc : ℕ) : List Char → Option ℕ
  | [] => some acc
  | c :: cs =>
    if c.isDigit then digTail (acc * 10 + digitVal c) cs
    else if c = '_' then
      match cs with
      | c2 :: cs2 => if c2.isDigit then digTail (acc * 10 + digitVal c2) cs2 else none
      | [] => none
    else none

/-- Digit part of an integer literal: at least one digit, then `digTail`. -/
def digPart : List Char → Option ℕ
  | c :: cs => if c.isDigit then digTail (digitVal c) cs else none
  | [] => none

/-- Python `int(s)` on an ASCII string: strip whitespace, optional sign,
decimal digits with optional single underscores between digits.  `none`
models a raised `ValueError`. -/
def pyInt (s : List Char) : Option ℤ :=
  match pyStrip s with
  | '-' :: rest => Option.map (fun n : ℕ => -(n : ℤ)) (digPart rest)
  | '+' :: rest => Option.map (fun n : ℕ => (n : ℤ)) (digPart rest)
  | rest => Option.map (fun n : ℕ => (n : ℤ)) (digPart rest)

/-- Decimal digit characters of `n`, most significant first (helper). -/
def natDigits (n : ℕ) : List Char :=
  if h : n < 10 then [Char.ofNat (48 + n)]
  else natDigits (n / 10) ++ [Char.ofNat (48 + n % 10)]
  decreasing_by exact Nat.div_lt_self (by omega) (by omega)

/-- Python `"%05d" % n`: decimal of `n` left-padded with zeros to width 5,
the sign counting towards the width. -/
def format5 (n : ℤ) : List Char :=
  if n < 0 then
    '-' :: List.replicate (4 - (natDigits (-n).toNat).length) '0'
      ++ natDigits (-n).toNat
  else
    List.replicate (5 - (natDigits n.toNat).length) '0' ++ natDigits n.toNat

/-- Index of the last occurrence of `c` in `s`, if any. -/
def lastIdxOf (c : Char) (s : List Char) : Option ℕ :=
  (s.reverse.findIdx? (· = c)).map (fun j => s.length - 1 - j)

/-- `os.path.splitext(p)` (POSIX): split at the last dot of the final path
component, unless every character of the component before that dot is itself
a dot (hidden files such as `.bashrc` keep their name whole).
Returns the stem; the extension is `p` with the stem removed. -/
def splitextStem (s : List Char) : List Char :=
  match lastIdxOf '.' s with
  | none => s
  | some d =>
    let start := match lastIdxOf '/' s with
      | none => 0
      | some k => k + 1
    if start ≤ d ∧ ((s.drop start).take (d - start)).any (· ≠ '.') then
      s.take d
    else s

/-- Extension component of `os.path.splitext`. -/
def splitextExt (s : List Char) : List Char :=
  s.drop (splitextStem s).length

/-- Accumulated decimal value of a digit string (specification-side helper
for reasoning about `digTail`). -/
def foldVal (acc : ℕ) (xs : List Char) : ℕ :=
  xs.foldl (fun a c => a * 10 + digitVal c) acc

/-! ## `get_next_filename` (App.py lines 760–777)

The state of the `outputs` directory is the list of file names (no directory
components) that `os.listdir` returns. -/

/-- Python `max(nums, default=0)`. -/
def pyMaxD (l : List ℤ) (d : ℤ) : ℤ :=
  l.maximum.unbot' d

/-- The integer stems of the files carrying `extension`, in the sense of
`get_next_filename`: keep files ending in `extension`, parse each stem with
`int(...)`, drop the ones that raise. -/
def currentNumbers (extension : List Char) (files : List (List Char)) : List ℤ :=
  (files.filter (fun f => extension.isSuffixOf f)).filterMap
    (fun f => pyInt (splitextStem f))

/-- The numeric part of the name `get_next_filename` produces:
`max(current_numbers, default=0) + 1`. -/
def nextNumber (extension : List Char) (files : List (List Char)) : ℤ :=
  pyMaxD (currentNumbers extension files) 0 + 1

/-- The base name `f"{next_number:05d}{extension}"`. -/
def nextBasename (extension : List Char) (files : List (List Char)) : List Char :=
  format5 (nextNumber extension files) ++ extension

/-- `get_next_filename(extension)`: `os.path.join("outputs", ...)` of the
next zero-padded sequential name (POSIX join). -/
def get_next_filename (extension : List Char) (files : List (List Char)) :
    List Char :=
  "outputs/".data ++ nextBasename extension files

/-! ## `auto_crop_image` (App.py lines 178–204)

Only the geometry is modelled: an image is its pair of pixel dimensions.
The float ratio comparison `w/h ≷ tw/th` is exact cross-multiplication; the
float truncations `int(h * target_ratio)` and `int(w / target_ratio)` are
natural-number division. -/

/-- Crop rectangle `(left, top, right, bottom)` chosen by `auto_crop_image`
before the final resize. -/
def cropBox (w h tw th : ℕ) : ℕ × ℕ × ℕ × ℕ :=
  if w * th > tw * h then
    -- image too wide: crop left and right
    let nw := h * tw / th
    let left := (w - nw) / 2
    (left, 0, left + nw, h)
  else if w * th < tw * h then
    -- image too tall: crop top and bottom
    let nh := w * th / tw
    let top := (h - nh) / 2
    (0, top, w, top + nh)
  else (0, 0, w, h)

/-- Dimensions of the image after `image.crop(cropBox ...)`. -/
def croppedDims (w h tw th : ℕ) : ℕ × ℕ :=
  let (l, t, r, b) := cropBox w h tw th
  (r - l, b - t)

/-- `auto_crop_image`: center-crop to the target aspect ratio, then
`image.resize((target_width, target_height))`; result dimensions. -/
def auto_crop_image (w h tw th : ℕ) : ℕ × ℕ :=
  let _cropped := croppedDims w h tw th
  -- `image.resize((target_width, target_height), Image.LANCZOS)`
  (tw, th)

/-! ## `auto_crop_video` (App.py lines 207–263)

A capture is modelled by its container metadata; `cv2.VideoCapture` decodes
every frame at the container dimensions.  The float `scale` is the exact
rational, and each `int(...)` is an explicit floor (the operands are
non-negative, so Python truncation is floor). -/

/-- Container metadata of an opened `cv2.VideoCapture`. -/
structure VideoMeta where
  width : ℕ
  height : ℕ
  fps : ℚ
  frames : ℕ

/-- Length of the numpy basic slice `a[start:stop]` on an axis of size `n`
(negative indices count from the end, out-of-range indices clamp). -/
def npSliceLen (n : ℕ) (start stop : ℤ) : ℕ :=
  let norm : ℤ → ℤ := fun i => if i < 0 then max ((n : ℤ) + i) 0 else min i n
  (norm stop - norm start).toNat

/-- `scale = min(1.0, target_width / orig_width, target_height / orig_height)`. -/
def videoScale (ow oh tw th : ℕ) : ℚ :=
  min 1 (min ((tw : ℚ) / ow) ((th : ℚ) / oh))

/-- `new_width = int(orig_width * scale)`. -/
def scaledWidth (ow oh tw th : ℕ) : ℕ :=
  (⌊(ow : ℚ) * videoScale ow oh tw th⌋).toNat

/-- `new_height = int(orig_height * scale)`. -/
def scaledHeight (ow oh tw th : ℕ) : ℕ :=
  (⌊(oh : ℚ) * videoScale ow oh tw th⌋).toNat

/-- Dimension effect of the loop body of `auto_crop_video` on one decoded
frame of size `w × h`: downscale when `scale < 1`, then either center-crop
(numpy slicing, Python floor division) or resize to the target. -/
def processFrameDims (tw th : ℕ) (scale : ℚ) (nw nh w h : ℕ) : ℕ × ℕ :=
  let wh := if scale < 1 then (nw, nh) else (w, h)
  if wh.1 > tw ∨ wh.2 > th then
    let left := ((wh.1 : ℤ) - tw).fdiv 2
    let top := ((wh.2 : ℤ) - th).fdiv 2
    (npSliceLen wh.1 left (left + tw), npSliceLen wh.2 top (top + th))
  else (tw, th)

/-- The `while frame_count < desired_frame_count` loop: one frame written
per iteration until the budget or the capture (`avail` frames left) runs
out. -/
def cropLoop (fr : ℕ × ℕ) : ℕ → ℕ → List (ℕ × ℕ)
  | 0, _ => []
  | _ + 1, 0 => []
  | budget + 1, avail + 1 => fr :: cropLoop fr budget avail

/-- `auto_crop_video`: a `none` capture models `cap.isOpened()` returning
false (the original path is returned, nothing written); otherwise returns
the `_cropped.mp4` output path and the written video (its FPS and the
dimensions of each written frame). -/
def auto_crop_video (cap : Option VideoMeta) (video_path : List Char)
    (tw th desired_frame_count : ℕ) (desired_fps : ℚ) :
    List Char × Option (ℚ × List (ℕ × ℕ)) :=
  match cap with
  | none => (video_path, none)
  | some m =>
    let scale := videoScale m.width m.height tw th
    let nw := scaledWidth m.width m.height tw th
    let nh := scaledHeight m.width m.height tw th
    let out_path := splitextStem video_path ++ "_cropped.mp4".data
    (out_path,
     some (desired_fps,
       cropLoop (processFrameDims tw th scale nw nh m.width m.height)
         desired_frame_count m.frames))

/-! ## Aspect-ratio dictionaries and the VRAM dispatch table
(App.py lines 23–51 and 54–134)

Python dicts preserve insertion order, so each dict is an association list in
source order; `dict.get(key, default)` is `List.lookup` with a fallback. -/

/-- `ASPECT_RATIOS_1_3b`. -/
def ASPECT_RATIOS_1_3b : List (String × ℕ × ℕ) :=
  [("1:1", 640, 640), ("4:3", 736, 544), ("3:4", 544, 736),
   ("3:2", 768, 512), ("2:3", 512, 768), ("16:9", 832, 480),
   ("9:16", 480, 832), ("21:9", 960, 416), ("9:21", 416, 960),
   ("4:5", 560, 704), ("5:4", 704, 560)]

/-- `ASPECT_RATIOS_14b`. -/
def ASPECT_RATIOS_14b : List (String × ℕ × ℕ) :=
  [("1:1", 960, 960), ("4:3", 1104, 832), ("3:4", 832, 1104),
   ("3:2", 1152, 768), ("2:3", 768, 1152), ("16:9", 1280, 720),
   ("16:9_low", 832, 480), ("9:16", 720, 1280), ("9:16_low", 832, 480),
   ("21:9", 1472, 624), ("9:21", 624, 1472), ("4:5", 864, 1072),
   ("5:4", 1072, 864)]

/-- The VRAM mapping dict built by `update_vram_and_resolution` for the
1.3B model. -/
def vramMap_1_3b : List (String × String) :=
  [("4GB", "0"), ("6GB", "500000000"), ("8GB", "1000000000"),
   ("10GB", "7000000000"), ("12GB", "7000000000"), ("16GB", "7000000000"),
   ("24GB", "7000000000"), ("32GB", "7000000000"), ("48GB", "12000000000"),
   ("80GB", "12000000000")]

/-- The VRAM mapping dict for the 14B text-to-video model. -/
def vramMap_14b_text : List (String × String) :=
  [("4GB", "0"), ("6GB", "0"), ("8GB", "0"), ("10GB", "0"), ("12GB", "0"),
   ("16GB", "0"), ("24GB", "3000000000"), ("32GB", "6500000000"),
   ("48GB", "22000000000"), ("80GB", "70000000000")]

/-- The VRAM mapping dict for the 14B image-to-video 720P model. -/
def vramMap_14b_720p : List (String × String) :=
  [("4GB", "0"), ("6GB", "0"), ("8GB", "0"), ("10GB", "0"), ("12GB", "0"),
   ("16GB", "0"), ("24GB", "0"), ("32GB", "3500000000"),
   ("48GB", "12000000000"), ("80GB", "70000000000")]

/-- The VRAM mapping dict for the 14B image-to-video 480P model. -/
def vramMap_14b_480p : List (String × String) :=
  [("4GB", "0"), ("6GB", "0"), ("8GB", "0"), ("10GB", "0"), ("12GB", "0"),
   ("16GB", "1200000000"), ("24GB", "5000000000"), ("32GB", "9500000000"),
   ("48GB", "20000000000"), ("80GB", "70000000000")]

/-- The VRAM mapping dict of the final `else` branch (unrecognized model). -/
def vramMap_else : List (String × String) :=
  [("4GB", "0"), ("6GB", "0"), ("8GB", "0"), ("10GB", "0"), ("12GB", "0"),
   ("16GB", "0"), ("24GB", "0"), ("32GB", "12000000000"),
   ("48GB", "12000000000"), ("80GB", "70000000000")]

/-- `update_vram_and_resolution(model_choice, preset)`: numeric string from
the model's mapping (default `"12000000000"`), the key list of the aspect
dictionary associated with the model, and the default aspect `"16:9"`. -/
def update_vram_and_resolution (model_choice preset : String) :
    String × List String × String :=
  let pick : List (String × String) × List (String × ℕ × ℕ) :=
    if model_choice = "WAN 2.1 1.3B (Text/Video-to-Video)" then
      (vramMap_1_3b, ASPECT_RATIOS_1_3b)
    else if model_choice = "WAN 2.1 14B Text-to-Video" then
      (vramMap_14b_text, ASPECT_RATIOS_14b)
    else if model_choice = "WAN 2.1 14B Image-to-Video 720P" then
      (vramMap_14b_720p, ASPECT_RATIOS_14b)
    else if model_choice = "WAN 2.1 14B Image-to-Video 480P" then
      (vramMap_14b_480p, ASPECT_RATIOS_1_3b)
    else
      (vramMap_else, ASPECT_RATIOS_14b)
  ((pick.1.lookup preset).getD "12000000000", pick.2.map Prod.fst, "16:9")

/-- The ten VRAM presets offered by the UI. -/
def vramPresets : List String :=
  ["4GB", "6GB", "8GB", "10GB", "12GB", "16GB", "24GB", "32GB", "48GB", "80GB"]

/-- The four recognized model-choice identifiers. -/
def modelChoices : List String :=
  ["WAN 2.1 1.3B (Text/Video-to-Video)", "WAN 2.1 14B Text-to-Video",
   "WAN 2.1 14B Image-to-Video 720P", "WAN 2.1 14B Image-to-Video 480P"]

/-! ## Pipeline cache, seed selection and the generation loops
(App.py lines 288–544, 557–747, 794–893)

The cooperative cancel flags are set from another request handler, so a run
is modelled against a poll schedule: `flag k` is the value the `k`-th poll
of the flag reads.  `random.randint` draws from a per-iteration entropy
source.  External effects (the diffusion pipeline, `save_video`, sidecar
writes, Practical-RIFE) are recorded as events in program order. -/

/-- The `current_config` dictionary used as the pipeline-cache key. -/
structure PipeConfig where
  model_choice : String
  torch_dtype : String
  num_persistent : String
  lora_model : Option String
  lora_alpha : ℚ
deriving DecidableEq

/-- The expensive pipeline object, abstracted to the arguments
`load_wan_pipeline` was given. -/
structure Pipe where
  cfg : PipeConfig
deriving DecidableEq

/-- `load_wan_pipeline` (App.py lines 794–893): the loading work is
external; the model records the arguments the pipeline was built from. -/
def load_wan_pipeline (model_choice torch_dtype_str num_persistent : String)
    (lora_path : Option String) (lora_alpha : ℚ) : Pipe :=
  ⟨⟨model_choice, torch_dtype_str, num_persistent, lora_path, lora_alpha⟩⟩

/-- The module-level globals `loaded_pipeline` / `loaded_pipeline_config`;
`none` models `None` and the initial empty dict respectively (the empty
dict compares unequal to every full configuration dict). -/
structure AppGlobals where
  loaded_pipeline : Option Pipe
  loaded_pipeline_config : Option PipeConfig
deriving DecidableEq

/-- `if loaded_pipeline is None or loaded_pipeline_config != current_config:`
reload and record the new configuration, else keep the cached pipeline.
Returns the new globals and whether `load_wan_pipeline` was invoked. -/
def ensurePipeline (g : AppGlobals) (cfg : PipeConfig) : AppGlobals × Bool :=
  if g.loaded_pipeline = none ∨ g.loaded_pipeline_config ≠ some cfg then
    (⟨some (load_wan_pipeline cfg.model_choice cfg.torch_dtype
        cfg.num_persistent cfg.lora_model cfg.lora_alpha), some cfg⟩, true)
  else (g, false)

/-- `random.randint(lo, hi)` (inclusive bounds) from an entropy value. -/
def pyRandint (lo hi entropy : ℕ) : ℕ := lo + entropy % (hi + 1 - lo)

/-- Seed selection (App.py lines 425–431 and 664–670): random draw from
`[0, 2^32 - 1]`, else `int(seed_input)` when the stripped input is
non-empty, with the `try/except` collapsing every failure to `0`. -/
def selectSeed (use_random_seed : Bool) (entropy : ℕ) (seed_input : String) : ℤ :=
  if use_random_seed then (pyRandint 0 (2 ^ 32 - 1) entropy : ℤ)
  else if pyStrip seed_input.data = [] then 0
  else (pyInt seed_input.data).getD 0

/-- `effective_lora_model` (App.py lines 372–375 and 592–595): `"None"` and
the falsy empty string mean no LoRA, else `os.path.join("LoRAs", name)`. -/
def effectiveLora (lora_model : String) : Option String :=
  if lora_model = "None" ∨ lora_model = "" then none
  else some ("LoRAs/" ++ lora_model)

/-- The `current_config` record built by both generation functions. -/
def mkConfig (mc torch_dtype num_persistent lora_model : String)
    (lora_alpha : ℚ) : PipeConfig :=
  ⟨mc, torch_dtype, num_persistent, effectiveLora lora_model, lora_alpha⟩

/-- Effective model dispatch of `generate_videos` (App.py lines 322–335). -/
def dispatchModel (radio : String) : Option String :=
  if radio = "WAN 2.1 1.3B (Text/Video-to-Video)" then some "1.3B"
  else if radio = "WAN 2.1 14B Text-to-Video" then some "14B_text"
  else if radio = "WAN 2.1 14B Image-to-Video 720P" then some "14B_image_720p"
  else if radio = "WAN 2.1 14B Image-to-Video 480P" then some "14B_image_480p"
  else none

/-- Python `str.splitlines()` on its common LF / CR / CRLF terminators. -/
def splitlines : List Char → List Char → List (List Char)
  | [], acc => if acc = [] then [] else [acc.reverse]
  | '\x0d' :: '\n' :: rest, acc => acc.reverse :: splitlines rest []
  | '\x0d' :: rest, acc => acc.reverse :: splitlines rest []
  | '\n' :: rest, acc => acc.reverse :: splitlines rest []
  | c :: rest, acc => splitlines rest (c :: acc)

/-- `prompts_list` (App.py lines 396–399): one prompt per non-blank
stripped line in multi-line mode, else the single stripped prompt. -/
def promptsList (multi_line : Bool) (prompt : String) : List (List Char) :=
  if multi_line then
    ((splitlines prompt.data []).map pyStrip).filter (· ≠ [])
  else [pyStrip prompt.data]

/-- Inputs of `generate_videos` that the modelled behaviour depends on.
`input_image` / `input_video` record presence; `entropy k` feeds the `k`-th
iteration's `random.randint`. -/
structure GenInputs where
  prompt : String
  multi_line : Bool
  num_generations : ℕ
  use_random_seed : Bool
  seed_input : String
  entropy : ℕ → ℕ
  model_choice_radio : String
  num_persistent_input : String
  torch_dtype : String
  input_image : Bool
  input_video : Bool
  auto_crop : Bool
  save_prompt : Bool
  pr_rife_enabled : Bool
  lora_model : String
  lora_alpha : ℚ

/-- Observable steps of a `generate_videos` run, tagged by iteration. -/
inductive GenEvent
  | loadPipe (cfg : PipeConfig)
  | poll (idx : ℕ) (value : Bool)
  | savePre (idx : ℕ)
  | genVideo (idx : ℕ) (seed : ℤ)
  | saveVideo (idx : ℕ)
  | saveText (idx : ℕ)
deriving DecidableEq

/-- Iteration index of a per-iteration effect (polls and pipeline loads are
not effects). -/
def genProcIdx : GenEvent → Option ℕ
  | GenEvent.loadPipe _ => none
  | GenEvent.poll _ _ => none
  | GenEvent.savePre k => some k
  | GenEvent.genVideo k _ => some k
  | GenEvent.saveVideo k => some k
  | GenEvent.saveText k => some k

/-- Poll indices of an event list, in order. -/
def genPolls (evs : List GenEvent) : List ℕ :=
  evs.filterMap fun e => match e with
    | GenEvent.poll k _ => some k
    | _ => none

/-- Return value of `generate_videos`: video path (`[]` models the empty
string), the salient status message, and the last used seed. -/
structure GenResult where
  video : List Char
  message : String
  last_seed : Option ℤ
deriving DecidableEq

/-- State carried through the nested generation loops. -/
structure GenLoopState where
  iter : ℕ
  lastVideo : List Char
  lastBase : List Char
  lastSeed : Option ℤ
  files : List (List Char)
  events : List GenEvent

/-- A loop step either returns from `generate_videos` (with the globals it
leaves behind) or continues. -/
inductive GenOutcome
  | done (g : AppGlobals) (events : List GenEvent) (res : GenResult)
  | next (ls : GenLoopState)

/-- The events accumulated by a loop outcome. -/
def genOutcomeEvents : GenOutcome → List GenEvent
  | GenOutcome.done _ evs _ => evs
  | GenOutcome.next ls => ls.events

/-- One iteration of the nested loops of `generate_videos` (App.py lines
404–522): poll `cancel_flag`; on cancellation reset the globals and return
the empty path; otherwise select the seed and run the model branch, naming
the video with `get_next_filename`, saving it, and optionally saving the
sidecar text file (both files land in the outputs directory). -/
def genIter (flag : ℕ → Bool) (inp : GenInputs) (mc : String)
    (ls : GenLoopState) : GenOutcome :=
  let v := flag ls.iter
  let evs := ls.events ++ [GenEvent.poll ls.iter v]
  if v then
    GenOutcome.done ⟨none, none⟩ evs
      ⟨[], "[CMD] Generation cancelled by user.", ls.lastSeed⟩
  else
    let seed := selectSeed inp.use_random_seed (inp.entropy ls.iter) inp.seed_input
    if mc = "1.3B" ∨ mc = "14B_text" then
      let base := nextBasename ".mp4".data ls.files
      let evs := evs ++ [GenEvent.genVideo ls.iter seed, GenEvent.saveVideo ls.iter]
        ++ (if inp.save_prompt then [GenEvent.saveText ls.iter] else [])
      let files := (ls.files ++ [base])
        ++ (if inp.save_prompt then [splitextStem base ++ ".txt".data] else [])
      GenOutcome.next ⟨ls.iter + 1, "outputs/".data ++ base, base, some seed,
        files, evs⟩
    else if mc = "14B_image_720p" ∨ mc = "14B_image_480p" then
      if inp.input_image = false then
        GenOutcome.done ⟨none, none⟩ evs
          ⟨[], "[CMD] Error: Image model selected but no image provided.", some seed⟩
      else
        let base := nextBasename ".mp4".data ls.files
        let evs := evs ++ [GenEvent.savePre ls.iter, GenEvent.genVideo ls.iter seed,
          GenEvent.saveVideo ls.iter]
          ++ (if inp.save_prompt then [GenEvent.saveText ls.iter] else [])
        let files := (ls.files ++ [base])
          ++ (if inp.save_prompt then [splitextStem base ++ ".txt".data] else [])
        GenOutcome.next ⟨ls.iter + 1, "outputs/".data ++ base, base, some seed,
          files, evs⟩
    else
      GenOutcome.done ⟨none, none⟩ evs
        ⟨[], "[CMD] Invalid combination of inputs.", some seed⟩

/-- `for i in range(int(num_generations))`. -/
def genInner (flag : ℕ → Bool) (inp : GenInputs) (mc : String) :
    ℕ → GenLoopState → GenOutcome
  | 0, ls => GenOutcome.next ls
  | n + 1, ls =>
    match genIter flag inp mc ls with
    | GenOutcome.done g evs r => GenOutcome.done g evs r
    | GenOutcome.next ls' => genInner flag inp mc n ls'

/-- `for p in prompts_list`. -/
def genOuter (flag : ℕ → Bool) (inp : GenInputs) (mc : String) :
    List (List Char) → GenLoopState → GenOutcome
  | [], ls => GenOutcome.next ls
  | _ :: ps, ls =>
    match genInner flag inp mc inp.num_generations ls with
    | GenOutcome.done g evs r => GenOutcome.done g evs r
    | GenOutcome.next ls' => genOuter flag inp mc ps ls'

/-- `len(prompts_list) * int(num_generations)`. -/
def totalIterations (inp : GenInputs) : ℕ :=
  (promptsList inp.multi_line inp.prompt).length * inp.num_generations

/-- `generate_videos` (App.py lines 288–544).  `files` is the listing of
the outputs directory at entry.  Returns the globals left behind, the
events of the run, and the returned triple. -/
def generate_videos (g : AppGlobals) (flag : ℕ → Bool) (inp : GenInputs)
    (files : List (List Char)) : AppGlobals × List GenEvent × GenResult :=
  match dispatchModel inp.model_choice_radio with
  | none => (g, [], ⟨[], "Invalid model choice.", none⟩)
  | some mc =>
    let cfg := mkConfig mc inp.torch_dtype inp.num_persistent_input
      inp.lora_model inp.lora_alpha
    let gl := ensurePipeline g cfg
    let evs0 := if gl.2 then [GenEvent.loadPipe cfg] else []
    match genOuter flag inp mc (promptsList inp.multi_line inp.prompt)
        ⟨0, [], [], none, files, evs0⟩ with
    | GenOutcome.done g' evs r => (g', evs, r)
    | GenOutcome.next ls =>
      let final := if inp.pr_rife_enabled ∧ ls.lastVideo ≠ [] then
          "outputs/improved_".data ++ ls.lastBase
        else ls.lastVideo
      (⟨none, none⟩, ls.events, ⟨final, "[CMD] Generation complete.", ls.lastSeed⟩)

/-- Inputs of `batch_process_videos` that the modelled behaviour depends
on.  The file system is read through `folder_isdir`, `folderFiles`
(`os.listdir` of the input folder), `output_exists` (the initial contents
of the batch output folder) and `prompt_txt` / `image_opens`. -/
structure BatchInputs where
  default_prompt : String
  folder_isdir : Bool
  folderFiles : List (List Char)
  batch_output_folder : List Char
  output_exists : List Char → Bool
  prompt_txt : List Char → Option (List Char)
  image_opens : List Char → Bool
  skip_overwrite : Bool
  use_random_seed : Bool
  seed_input : String
  entropy : ℕ → ℕ
  model_choice_radio : String
  num_persistent_input : String
  torch_dtype : String
  auto_crop : Bool
  save_prompt : Bool
  pr_rife_enabled : Bool
  lora_model : String
  lora_alpha : ℚ

/-- Observable steps of a `batch_process_videos` run, tagged with the image
iteration index and the image file name. -/
inductive BatchEvent
  | loadPipe (cfg : PipeConfig)
  | poll (idx : ℕ) (value : Bool)
  | skip (idx : ℕ) (image_file : List Char)
  | openFail (idx : ℕ) (image_file : List Char)
  | pipelineCall (idx : ℕ) (image_file : List Char) (seed : ℤ)
  | saveVideo (idx : ℕ) (image_file : List Char) (path : List Char)
  | savePre (idx : ℕ) (image_file : List Char) (path : List Char)
  | saveText (idx : ℕ) (image_file : List Char) (path : List Char)
deriving DecidableEq

/-- Iteration index of a per-image step (polls and pipeline loads are not
per-image steps). -/
def batchProcIdx : BatchEvent → Option ℕ
  | BatchEvent.loadPipe _ => none
  | BatchEvent.poll _ _ => none
  | BatchEvent.skip k _ => some k
  | BatchEvent.openFail k _ => some k
  | BatchEvent.pipelineCall k _ _ => some k
  | BatchEvent.saveVideo k _ _ => some k
  | BatchEvent.savePre k _ _ => some k
  | BatchEvent.saveText k _ _ => some k

/-- Poll indices of a batch event list, in order. -/
def batchPolls (evs : List BatchEvent) : List ℕ :=
  evs.filterMap fun e => match e with
    | BatchEvent.poll k _ => some k
    | _ => none

/-- POSIX `os.path.join` of a folder and a file name. -/
def osJoin (a b : List Char) : List Char := a ++ '/' :: b

/-- `images = [f for f in files if splitext(f)[1].lower() in
[".jpg", ".png", ".jpeg"]]` (App.py line 630). -/
def batchImages (files : List (List Char)) : List (List Char) :=
  files.filter fun f =>
    [".jpg".data, ".png".data, ".jpeg".data].contains
      ((splitextExt f).map Char.toLower)

/-- The batch output path of an image: same base name, `.mp4`, in the
batch output folder (App.py line 658). -/
def batchOutName (inp : BatchInputs) (image_file : List Char) : List Char :=
  osJoin inp.batch_output_folder (splitextStem image_file ++ ".mp4".data)

/-- The image loop of `batch_process_videos` (App.py lines 634–742): poll
`cancel_batch_flag` (break when set), resolve the prompt, skip existing
outputs under `skip_overwrite` (`written` holds outputs written earlier in
this same run), select the seed, open the image (failures just continue),
then run the pipeline, save the video, the preprocessed copy, the sidecar
text, and the Practical-RIFE result. -/
def batchLoop (bflag : ℕ → Bool) (inp : BatchInputs) :
    List (List Char) → ℕ → List (List Char) → List BatchEvent →
      List BatchEvent
  | [], _, _, evs => evs
  | img :: rest, k, written, evs =>
    let v := bflag k
    let evs := evs ++ [BatchEvent.poll k v]
    if v then evs
    else
      let base := splitextStem img
      let output_filename := batchOutName inp img
      if inp.skip_overwrite ∧
          (inp.output_exists output_filename = true ∨ output_filename ∈ written) then
        batchLoop bflag inp rest (k + 1) written (evs ++ [BatchEvent.skip k img])
      else
        let seed := selectSeed inp.use_random_seed (inp.entropy k) inp.seed_input
        if inp.image_opens img = false then
          batchLoop bflag inp rest (k + 1) written (evs ++ [BatchEvent.openFail k img])
        else
          let extra := [BatchEvent.pipelineCall k img seed,
              BatchEvent.saveVideo k img output_filename]
            ++ (if inp.auto_crop then
              [BatchEvent.savePre k img
                (osJoin "auto_pre_processed_images".data (base ++ ".png".data))]
              else [])
            ++ (if inp.save_prompt then
              [BatchEvent.saveText k img
                (splitextStem output_filename ++ ".txt".data)]
              else [])
            ++ (if inp.pr_rife_enabled then
              [BatchEvent.saveVideo k img
                (osJoin inp.batch_output_folder
                  ("improved_".data ++ base ++ ".mp4".data))]
              else [])
          batchLoop bflag inp rest (k + 1) (written ++ [output_filename])
            (evs ++ extra)

/-- Effective model of `batch_process_videos` (App.py lines 579–590):
only the two image-to-video identifiers are accepted. -/
def batchModel (radio : String) : Option String :=
  if radio = "WAN 2.1 14B Image-to-Video 720P" then some "14B_image_720p"
  else if radio = "WAN 2.1 14B Image-to-Video 480P" then some "14B_image_480p"
  else none

/-- `batch_process_videos` (App.py lines 557–747).  Returns the globals
left behind, the events, and the salient status message of the returned
log.  Note the order of the checks: the pipeline is (re)loaded before the
input-folder existence check. -/
def batch_process_videos (g : AppGlobals) (bflag : ℕ → Bool)
    (inp : BatchInputs) : AppGlobals × List BatchEvent × String :=
  match batchModel inp.model_choice_radio with
  | none =>
    (g, [], "[CMD] Batch processing currently only supports the WAN 2.1 14B Image-to-Video models.")
  | some mc =>
    let cfg := mkConfig mc inp.torch_dtype inp.num_persistent_input
      inp.lora_model inp.lora_alpha
    let gl := ensurePipeline g cfg
    let evs0 := if gl.2 then [BatchEvent.loadPipe cfg] else []
    if inp.folder_isdir = false then
      (gl.1, evs0, "[CMD] Provided folder path does not exist.")
    else
      let evs := batchLoop bflag inp (batchImages inp.folderFiles) 0 [] evs0
      (⟨none, none⟩, evs, "[CMD] Batch run finished.")

/-- Per-iteration event facts of a (partial) `generate_videos` run: the
polls made so far are exactly `0, …, n-1` in order, and every per-iteration
effect happened at an iteration whose poll read `false`, with the seed
selected by `selectSeed` from that iteration's entropy. -/
def GenEventProps (flag : ℕ → Bool) (inp : GenInputs) (n : ℕ)
    (evs : List GenEvent) : Prop :=
  genPolls evs = List.range n ∧
  (∀ e ∈ evs, ∀ k, genProcIdx e = some k → flag k = false ∧ k < n) ∧
  (∀ k s, GenEvent.genVideo k s ∈ evs →
    s = selectSeed inp.use_random_seed (inp.entropy k) inp.seed_input)

/-- Loop-state invariant: the event facts, plus: every poll so far read
`false`. -/
def GenStInv (flag : ℕ → Bool) (inp : GenInputs) (ls : GenLoopState) : Prop :=
  GenEventProps flag inp ls.iter ls.events ∧ ∀ k < ls.iter, flag k = false

/-- Per-image event facts of a (partial) `batch_process_videos` run: the
polls made so far are exactly `0, …, n-1` in order, every per-image step
happened at an iteration whose poll read `false`, and pipeline calls use
the seed selected from that iteration's entropy. -/
def BatchEventProps (bflag : ℕ → Bool) (inp : BatchInputs) (n : ℕ)
    (evs : List BatchEvent) : Prop :=
  batchPolls evs = List.range n ∧
  (∀ e ∈ evs, ∀ k, batchProcIdx e = some k → bflag k = false ∧ k < n) ∧
  (∀ k img s, BatchEvent.pipelineCall k img s ∈ evs →
    s = selectSeed inp.use_random_seed (inp.entropy k) inp.seed_input)

/-- `e` is not a processing step of image `img`: not a pipeline invocation
on it, not a video/preprocessed/sidecar write for it. -/
def NotImgEvent (img : List Char) (e : BatchEvent) : Prop :=
  (∀ k s, e ≠ BatchEvent.pipelineCall k img s) ∧
  (∀ k p, e ≠ BatchEvent.saveVideo k img p) ∧
  (∀ k p, e ≠ BatchEvent.saveText k img p) ∧
  (∀ k p, e ≠ BatchEvent.savePre k img p)

/-! # Theorems -/

/-! ## String-primitive lemmas -/

theorem dropWhile_eq_self_of_none (p : Char → Bool) (s : List Char)
    (h : ∀ c ∈ s, p c = false) : s.dropWhile p = s := by
  cases s with
  | nil => rfl
  | cons a l => simp [List.dropWhile_cons, h a (by simp)]

theorem pyStrip_eq_self {s : List Char} (h : ∀ c ∈ s, isPyWs c = false) :
    pyStrip s = s := by
  unfold pyStrip
  rw [dropWhile_eq_self_of_none _ _ h,
    dropWhile_eq_self_of_none _ _ (fun c hc => h c (by simpa using hc)),
    List.reverse_reverse]

theorem isPyWs_eq_false_of_isDigit {c : Char} (h : c.isDigit = true) :
    isPyWs c = false := by
  cases hw : isPyWs c with
  | false => rfl
  | true =>
    exfalso
    simp only [isPyWs, Bool.or_eq_true, decide_eq_true_eq] at hw
    rcases hw with ((((hw | hw) | hw) | hw) | hw) | hw <;>
      (subst hw; exact absurd h (by decide))

theorem digitChar_isDigit {d : ℕ} (hd : d < 10) :
    (Char.ofNat (48 + d)).isDigit = true := by
  interval_cases d <;> decide

theorem digitVal_digitChar {d : ℕ} (hd : d < 10) :
    digitVal (Char.ofNat (48 + d)) = d := by
  interval_cases d <;> decide

theorem natDigits_all_digits (n : ℕ) : ∀ c ∈ natDigits n, c.isDigit = true := by
  induction n using Nat.strong_induction_on with
  | _ n ih =>
    rw [natDigits]
    split
    · intro c hc
      simp only [List.mem_singleton] at hc
      subst hc
      exact digitChar_isDigit (by omega)
    · intro c hc
      rcases List.mem_append.mp hc with h1 | h2
      · exact ih (n / 10) (Nat.div_lt_self (by omega) (by omega)) c h1
      · simp only [List.mem_singleton] at h2
        subst h2
        exact digitChar_isDigit (Nat.mod_lt _ (by omega))

theorem natDigits_ne_nil (n : ℕ) : natDigits n ≠ [] := by
  rw [natDigits]
  split <;> simp

theorem foldVal_append (acc : ℕ) (xs ys : List Char) :
    foldVal acc (xs ++ ys) = foldVal (foldVal acc xs) ys := by
  simp [foldVal, List.foldl_append]

theorem foldVal_natDigits (n : ℕ) : foldVal 0 (natDigits n) = n := by
  induction n using Nat.strong_induction_on with
  | _ n ih =>
    rw [natDigits]
    split
    · simp [foldVal, digitVal_digitChar ‹n < 10›]
    · rw [foldVal_append, ih (n / 10) (Nat.div_lt_self (by omega) (by omega))]
      simp [foldVal, digitVal_digitChar (Nat.mod_lt n (by omega))]
      omega

theorem foldVal_replicate_zero (k : ℕ) (ys : List Char) :
    foldVal 0 (List.replicate k '0' ++ ys) = foldVal 0 ys := by
  induction k with
  | zero => rfl
  | succ k ihk =>
    rw [List.replicate_succ, List.cons_append]
    simpa [foldVal, digitVal] using ihk

theorem digTail_all_digits {xs : List Char} (h : ∀ c ∈ xs, c.isDigit = true) :
    ∀ acc, digTail acc xs = some (foldVal acc xs) := by
  induction xs with
  | nil => intro acc; rfl
  | cons c cs ih =>
    intro acc
    rw [digTail.eq_def]
    dsimp only
    rw [if_pos (h c (by simp))]
    rw [ih (fun x hx => h x (by simp [hx]))]
    simp [foldVal]

theorem digPart_all_digits {xs : List Char} (hne : xs ≠ [])
    (h : ∀ c ∈ xs, c.isDigit = true) : digPart xs = some (foldVal 0 xs) := by
  cases xs with
  | nil => exact absurd rfl hne
  | cons c cs =>
    rw [digPart, if_pos (h c (by simp))]
    rw [digTail_all_digits (fun x hx => h x (by simp [hx]))]
    simp [foldVal]

theorem digPart_padded (k m : ℕ) :
    digPart (List.replicate k '0' ++ natDigits m) = some m := by
  rw [digPart_all_digits (by simp [natDigits_ne_nil m])
    (by
      intro c hc
      rcases List.mem_append.mp hc with h1 | h2
      · rw [List.eq_of_mem_replicate h1]; decide
      · exact natDigits_all_digits m c h2)]
  rw [foldVal_replicate_zero, foldVal_natDigits]

theorem format5_chars (z : ℤ) : ∀ c ∈ format5 z, c = '-' ∨ c.isDigit = true := by
  intro c hc
  unfold format5 at hc
  split at hc
  · rcases List.mem_append.mp hc with h1 | h2
    · rcases List.mem_cons.mp h1 with rfl | h1
      · exact Or.inl rfl
      · rw [List.eq_of_mem_replicate h1]; exact Or.inr (by decide)
    · exact Or.inr (natDigits_all_digits _ c h2)
  · rcases List.mem_append.mp hc with h1 | h2
    · rw [List.eq_of_mem_replicate h1]; exact Or.inr (by decide)
    · exact Or.inr (natDigits_all_digits _ c h2)

theorem format5_ne_nil (z : ℤ) : format5 z ≠ [] := by
  unfold format5
  split <;> simp [natDigits_ne_nil]

theorem format5_no_ws (z : ℤ) : ∀ c ∈ format5 z, isPyWs c = false := by
  intro c hc
  rcases format5_chars z c hc with rfl | h
  · decide
  · exact isPyWs_eq_false_of_isDigit h

theorem pyInt_format5 (z : ℤ) : pyInt (format5 z) = some z := by
  have hstrip : pyStrip (format5 z) = format5 z := pyStrip_eq_self (format5_no_ws z)
  unfold pyInt
  rw [hstrip]
  by_cases hz : z < 0
  · have hf : format5 z = '-' :: (List.replicate (4 - (natDigits (-z).toNat).length) '0'
        ++ natDigits (-z).toNat) := by
      unfold format5
      rw [if_pos hz]
      simp
    rw [hf]
    split
    · rename_i rest heq
      obtain ⟨-, h2⟩ := List.cons.inj heq
      rw [← h2, digPart_padded]
      simp only [Option.map_some', Option.some.injEq]
      omega
    · rename_i rest heq
      exact absurd (List.cons.inj heq).1 (by decide)
    · rename_i h1 h2
      exact absurd rfl (h1 _)
  · have hf : format5 z = List.replicate (5 - (natDigits z.toNat).length) '0'
        ++ natDigits z.toNat := by
      unfold format5
      rw [if_neg hz]
    rw [hf]
    split
    · rename_i rest heq
      have hmem : '-' ∈ List.replicate (5 - (natDigits z.toNat).length) '0'
          ++ natDigits z.toNat := by
        rw [heq]; exact List.mem_cons_self _ _
      rcases List.mem_append.mp hmem with h1 | h2
      · exact absurd (List.eq_of_mem_replicate h1) (by decide)
      · exact absurd (natDigits_all_digits _ _ h2) (by decide)
    · rename_i rest heq
      have hmem : '+' ∈ List.replicate (5 - (natDigits z.toNat).length) '0'
          ++ natDigits z.toNat := by
        rw [heq]; exact List.mem_cons_self _ _
      rcases List.mem_append.mp hmem with h1 | h2
      · exact absurd (List.eq_of_mem_replicate h1) (by decide)
      · exact absurd (natDigits_all_digits _ _ h2) (by decide)
    · rw [digPart_padded]
      simp only [Option.map_some', Option.some.injEq]
      omega

theorem lastIdxOf_none {c : Char} {s : List Char} (h : c ∉ s) :
    lastIdxOf c s = none := by
  unfold lastIdxOf
  rw [List.findIdx?_eq_none_iff.mpr]
  · rfl
  · intro x hx
    simp only [decide_eq_false_iff_not]
    intro hxc
    exact h (by rw [← hxc]; exact List.mem_reverse.mp hx)

theorem lastIdxOf_dot (s e : List Char) (hs : '.' ∉ s) (he : '.' ∉ e) :
    lastIdxOf '.' (s ++ '.' :: e) = some s.length := by
  unfold lastIdxOf
  have hrev : (s ++ '.' :: e).reverse = e.reverse ++ '.' :: s.reverse := by
    simp
  rw [hrev, List.findIdx?_append]
  rw [List.findIdx?_eq_none_iff.mpr (by
    intro x hx
    simp only [decide_eq_false_iff_not]
    intro hxc
    exact he (by rw [← hxc]; exact List.mem_reverse.mp hx))]
  rw [List.findIdx?_cons, if_pos (by decide)]
  simp only [Option.none_or, Option.map_some']
  congr 1
  simp

theorem splitextStem_append (s e : List Char) (hne : s ≠ [])
    (hs_dot : '.' ∉ s) (hs_slash : '/' ∉ s)
    (he_dot : '.' ∉ e) (he_slash : '/' ∉ e) :
    splitextStem (s ++ '.' :: e) = s := by
  unfold splitextStem
  rw [lastIdxOf_dot s e hs_dot he_dot]
  rw [lastIdxOf_none (c := '/') (by
    intro hmem
    rcases List.mem_append.mp hmem with h1 | h2
    · exact hs_slash h1
    · rcases List.mem_cons.mp h2 with h2 | h2
      · exact absurd h2 (by decide)
      · exact he_slash h2)]
  dsimp only
  rw [if_pos]
  · exact List.take_left' rfl
  · constructor
    · exact Nat.zero_le _
    · rcases List.exists_mem_of_ne_nil s hne with ⟨c, hc⟩
      rw [List.drop_zero, Nat.sub_zero]
      rw [List.take_append_of_le_length (le_refl _), List.take_length]
      refine List.any_eq_true.mpr ⟨c, hc, ?_⟩
      simp only [decide_eq_true_eq]
      intro hcd
      exact hs_dot (by rw [← hcd]; exact hc)

theorem le_pyMaxD {l : List ℤ} {a : ℤ} (ha : a ∈ l) (d : ℤ) : a ≤ pyMaxD l d := by
  unfold pyMaxD
  have h1 : (a : WithBot ℤ) ≤ l.maximum := List.le_maximum_of_mem' ha
  rcases hM : l.maximum with - | M
  · rw [hM] at h1
    exact absurd h1 (by simp)
  · rw [hM] at h1
    have hM' : WithBot.unbot' d (some M) = M := rfl
    rw [hM']
    have hcoe : ((M : ℤ) : WithBot ℤ) = some M := rfl
    rw [← hcoe] at h1
    exact_mod_cast h1

/-! ## Loop invariant lemmas -/

theorem genPolls_append (a b : List GenEvent) :
    genPolls (a ++ b) = genPolls a ++ genPolls b :=
  List.filterMap_append a b _

theorem batchPolls_append (a b : List BatchEvent) :
    batchPolls (a ++ b) = batchPolls a ++ batchPolls b :=
  List.filterMap_append a b _

theorem genEventProps_step (flag : ℕ → Bool) (inp : GenInputs) (n : ℕ)
    (evs : List GenEvent) (v : Bool) (extra : List GenEvent)
    (E : List GenEvent) (hE : E = evs ++ GenEvent.poll n v :: extra)
    (h : GenEventProps flag inp n evs)
    (hpoll : genPolls extra = [])
    (heff : ∀ e ∈ extra, ∀ k, genProcIdx e = some k → k = n)
    (hseed : ∀ k s, GenEvent.genVideo k s ∈ extra →
      k = n ∧ s = selectSeed inp.use_random_seed (inp.entropy n) inp.seed_input)
    (hv : flag n = false ∨ extra = []) :
    GenEventProps flag inp (n + 1) E := by
  subst hE
  obtain ⟨hp, he, hs⟩ := h
  refine ⟨?_, ?_, ?_⟩
  · rw [genPolls_append, hp]
    have hcons : genPolls (GenEvent.poll n v :: extra) = n :: genPolls extra := by
      simp [genPolls, List.filterMap_cons]
    rw [hcons, hpoll, List.range_succ]
  · intro e he' k hk
    rcases List.mem_append.mp he' with h1 | h2
    · obtain ⟨hf, hlt⟩ := he e h1 k hk
      exact ⟨hf, by omega⟩
    · rcases List.mem_cons.mp h2 with rfl | h3
      · simp [genProcIdx] at hk
      · have hkn := heff e h3 k hk
        subst hkn
        rcases hv with hv | rfl
        · exact ⟨hv, by omega⟩
        · simp at h3
  · intro k s hmem
    rcases List.mem_append.mp hmem with h1 | h2
    · exact hs k s h1
    · rcases List.mem_cons.mp h2 with heq | h3
      · exact absurd heq (by simp)
      · obtain ⟨rfl, hseq⟩ := hseed k s h3
        exact hseq

theorem genIter_cases (flag : ℕ → Bool) (inp : GenInputs) (mc : String)
    (ls : GenLoopState) (h : GenStInv flag inp ls) :
    (∃ ls', genIter flag inp mc ls = GenOutcome.next ls' ∧
      ls'.iter = ls.iter + 1 ∧ GenStInv flag inp ls') ∨
    (∃ gg evs r, genIter flag inp mc ls = GenOutcome.done gg evs r ∧
      gg = ⟨none, none⟩ ∧ r.video = [] ∧
      GenEventProps flag inp (ls.iter + 1) evs) := by
  obtain ⟨hev, hfl⟩ := h
  unfold genIter
  by_cases hv : flag ls.iter
  · rw [hv, if_pos rfl]
    refine Or.inr ⟨_, _, _, rfl, rfl, rfl, ?_⟩
    exact genEventProps_step flag inp ls.iter ls.events true [] _ (by simp) hev rfl
      (by simp) (by simp) (Or.inr rfl)
  · rw [Bool.not_eq_true] at hv
    rw [hv, if_neg (by simp)]
    by_cases hmc1 : mc = "1.3B" ∨ mc = "14B_text"
    · rw [if_pos hmc1]
      refine Or.inl ⟨_, rfl, rfl, ?_, ?_⟩
      · refine genEventProps_step flag inp ls.iter ls.events false
          ([GenEvent.genVideo ls.iter (selectSeed inp.use_random_seed
              (inp.entropy ls.iter) inp.seed_input), GenEvent.saveVideo ls.iter]
            ++ (if inp.save_prompt = true then [GenEvent.saveText ls.iter] else []))
          _ (by simp) hev ?_ ?_ ?_ (Or.inl hv)
        · rw [genPolls_append]
          split <;> simp [genPolls, List.filterMap_cons]
        · intro e hme k hk
          rcases List.mem_append.mp hme with h1 | h2
          · rcases List.mem_cons.mp h1 with rfl | h1
            · simpa [genProcIdx, eq_comm] using hk
            · rcases List.mem_cons.mp h1 with rfl | h1
              · simpa [genProcIdx, eq_comm] using hk
              · simp at h1
          · split at h2
            · have hsing := List.mem_singleton.mp h2
              subst hsing
              simpa [genProcIdx, eq_comm] using hk
            · simp at h2
        · intro k s hmem
          rcases List.mem_append.mp hmem with h1 | h2
          · rcases List.mem_cons.mp h1 with heq | h1
            · injection heq with ha hb
              exact ⟨ha, hb⟩
            · rcases List.mem_cons.mp h1 with heq | h1
              · exact absurd heq (by simp)
              · simp at h1
          · split at h2
            · exact absurd (List.mem_singleton.mp h2) (by simp)
            · simp at h2
      · intro k hk
        rcases Nat.lt_succ_iff_lt_or_eq.mp hk with hk | rfl
        · exact hfl k hk
        · exact hv
    · rw [if_neg hmc1]
      by_cases hmc2 : mc = "14B_image_720p" ∨ mc = "14B_image_480p"
      · rw [if_pos hmc2]
        by_cases himg : inp.input_image = false
        · rw [if_pos himg]
          refine Or.inr ⟨_, _, _, rfl, rfl, rfl, ?_⟩
          exact genEventProps_step flag inp ls.iter ls.events false [] _ (by simp)
            hev rfl (by simp) (by simp) (Or.inr rfl)
        · rw [if_neg himg]
          refine Or.inl ⟨_, rfl, rfl, ?_, ?_⟩
          · refine genEventProps_step flag inp ls.iter ls.events false
              ([GenEvent.savePre ls.iter, GenEvent.genVideo ls.iter
                  (selectSeed inp.use_random_seed (inp.entropy ls.iter)
                    inp.seed_input), GenEvent.saveVideo ls.iter]
                ++ (if inp.save_prompt = true then [GenEvent.saveText ls.iter] else []))
              _ (by simp) hev ?_ ?_ ?_ (Or.inl hv)
            · rw [genPolls_append]
              split <;> simp [genPolls, List.filterMap_cons]
            · intro e hme k hk
              rcases List.mem_append.mp hme with h1 | h2
              · rcases List.mem_cons.mp h1 with rfl | h1
                · simpa [genProcIdx, eq_comm] using hk
                · rcases List.mem_cons.mp h1 with rfl | h1
                  · simpa [genProcIdx, eq_comm] using hk
                  · rcases List.mem_cons.mp h1 with rfl | h1
                    · simpa [genProcIdx, eq_comm] using hk
                    · simp at h1
              · split at h2
                · have hsing := List.mem_singleton.mp h2
                  subst hsing
                  simpa [genProcIdx, eq_comm] using hk
                · simp at h2
            · intro k s hmem
              rcases List.mem_append.mp hmem with h1 | h2
              · rcases List.mem_cons.mp h1 with heq | h1
                · exact absurd heq (by simp)
                · rcases List.mem_cons.mp h1 with heq | h1
                  · injection heq with ha hb
                    exact ⟨ha, hb⟩
                  · rcases List.mem_cons.mp h1 with heq | h1
                    · exact absurd heq (by simp)
                    · simp at h1
              · split at h2
                · exact absurd (List.mem_singleton.mp h2) (by simp)
                · simp at h2
          · intro k hk
            rcases Nat.lt_succ_iff_lt_or_eq.mp hk with hk | rfl
            · exact hfl k hk
            · exact hv
      · rw [if_neg hmc2]
        refine Or.inr ⟨_, _, _, rfl, rfl, rfl, ?_⟩
        exact genEventProps_step flag inp ls.iter ls.events false [] _ (by simp)
          hev rfl (by simp) (by simp) (Or.inr rfl)

theorem genInner_cases (flag : ℕ → Bool) (inp : GenInputs) (mc : String) :
    ∀ (n : ℕ) (ls : GenLoopState), GenStInv flag inp ls →
    (∃ ls', genInner flag inp mc n ls = GenOutcome.next ls' ∧
      ls'.iter = ls.iter + n ∧ GenStInv flag inp ls') ∨
    (∃ gg evs r m, genInner flag inp mc n ls = GenOutcome.done gg evs r ∧
      gg = ⟨none, none⟩ ∧ r.video = [] ∧ GenEventProps flag inp m evs) := by
  intro n
  induction n with
  | zero => intro ls h; exact Or.inl ⟨ls, rfl, by omega, h⟩
  | succ n ih =>
    intro ls h
    rcases genIter_cases flag inp mc ls h with
      ⟨ls', heq, hiter, h'⟩ | ⟨gg, evs, r, heq, h1, h2, h3⟩
    · have hstep : genInner flag inp mc (n + 1) ls = genInner flag inp mc n ls' := by
        rw [genInner, heq]
      rcases ih ls' h' with ⟨ls'', heq2, hit2, h''⟩ | ⟨gg, evs, r, m, heq2, hp1, hp2, hp3⟩
      · exact Or.inl ⟨ls'', by rw [hstep, heq2], by omega, h''⟩
      · exact Or.inr ⟨gg, evs, r, m, by rw [hstep, heq2], hp1, hp2, hp3⟩
    · exact Or.inr ⟨gg, evs, r, ls.iter + 1, by rw [genInner, heq], h1, h2, h3⟩

theorem genOuter_cases (flag : ℕ → Bool) (inp : GenInputs) (mc : String) :
    ∀ (ps : List (List Char)) (ls : GenLoopState), GenStInv flag inp ls →
    (∃ ls', genOuter flag inp mc ps ls = GenOutcome.next ls' ∧
      ls'.iter = ls.iter + ps.length * inp.num_generations ∧
      GenStInv flag inp ls') ∨
    (∃ gg evs r m, genOuter flag inp mc ps ls = GenOutcome.done gg evs r ∧
      gg = ⟨none, none⟩ ∧ r.video = [] ∧ GenEventProps flag inp m evs) := by
  intro ps
  induction ps with
  | nil => intro ls h; exact Or.inl ⟨ls, rfl, by simp, h⟩
  | cons p ps ih =>
    intro ls h
    rcases genInner_cases flag inp mc inp.num_generations ls h with
      ⟨ls', heq, hiter, h'⟩ | ⟨gg, evs, r, m, heq, h1, h2, h3⟩
    · have hstep : genOuter flag inp mc (p :: ps) ls = genOuter flag inp mc ps ls' := by
        rw [genOuter, heq]
      rcases ih ls' h' with ⟨ls'', heq2, hit2, h''⟩ | ⟨gg, evs, r, m, heq2, hp1, hp2, hp3⟩
      · refine Or.inl ⟨ls'', by rw [hstep, heq2], ?_, h''⟩
        rw [hit2, hiter, List.length_cons]
        ring
      · exact Or.inr ⟨gg, evs, r, m, by rw [hstep, heq2], hp1, hp2, hp3⟩
    · exact Or.inr ⟨gg, evs, r, m, by rw [genOuter, heq], h1, h2, h3⟩

theorem genStInv_init (flag : ℕ → Bool) (inp : GenInputs)
    (files : List (List Char)) (evs0 : List GenEvent)
    (h0 : genPolls evs0 = [] ∧ ∀ e ∈ evs0, ∀ k, genProcIdx e ≠ some k) :
    GenStInv flag inp ⟨0, [], [], none, files, evs0⟩ := by
  refine ⟨⟨h0.1, ?_, ?_⟩, ?_⟩
  · intro e he k hk
    exact absurd hk (h0.2 e he k)
  · intro k s hmem
    have := h0.2 _ hmem k
    simp [genProcIdx] at this
  · intro k hk
    simp at hk

/-- Every run of `generate_videos` with a recognized model resets the
globals, satisfies the per-iteration event facts, and either completed all
iterations with every poll reading `false` or returned the empty path. -/
theorem generate_videos_cases (g : AppGlobals) (flag : ℕ → Bool)
    (inp : GenInputs) (files : List (List Char)) (mc : String)
    (hmc : dispatchModel inp.model_choice_radio = some mc) :
    (generate_videos g flag inp files).1 = ⟨none, none⟩ ∧
    (∃ m, GenEventProps flag inp m (generate_videos g flag inp files).2.1) ∧
    ((∀ k < totalIterations inp, flag k = false) ∨
      (generate_videos g flag inp files).2.2.video = []) := by
  have hinit : GenStInv flag inp ⟨0, [], [], none, files,
      if (ensurePipeline g (mkConfig mc inp.torch_dtype inp.num_persistent_input
        inp.lora_model inp.lora_alpha)).2 then
        [GenEvent.loadPipe (mkConfig mc inp.torch_dtype inp.num_persistent_input
          inp.lora_model inp.lora_alpha)]
      else []⟩ := by
    refine genStInv_init flag inp files _ ⟨?_, ?_⟩
    · split <;> simp [genPolls, List.filterMap_cons]
    · intro e he k
      split at he
      · have := List.mem_singleton.mp he
        subst this
        simp [genProcIdx]
      · simp at he
  unfold generate_videos
  rw [hmc]
  dsimp only
  rcases genOuter_cases flag inp mc (promptsList inp.multi_line inp.prompt) _ hinit with
    ⟨ls', heq, hiter, h'⟩ | ⟨gg, evs, r, m, heq, h1, h2, h3⟩
  · rw [heq]
    dsimp only
    refine ⟨rfl, ⟨ls'.iter, h'.1⟩, Or.inl ?_⟩
    intro k hk
    exact h'.2 k (by
      rw [hiter]
      simpa [totalIterations] using hk)
  · rw [heq]
    exact ⟨h1, ⟨m, h3⟩, Or.inr h2⟩

theorem mem_ite_nil {α : Type} {c : Prop} [Decidable c] {l : List α} {x : α}
    (hx : x ∈ (if c then l else [])) : x ∈ l := by
  split at hx
  · exact hx
  · simp at hx

theorem batchEventProps_step (bflag : ℕ → Bool) (inp : BatchInputs) (n : ℕ)
    (evs : List BatchEvent) (v : Bool) (extra : List BatchEvent)
    (E : List BatchEvent) (hE : E = evs ++ BatchEvent.poll n v :: extra)
    (h : BatchEventProps bflag inp n evs)
    (hpoll : batchPolls extra = [])
    (heff : ∀ e ∈ extra, ∀ k, batchProcIdx e = some k → k = n)
    (hseed : ∀ k img s, BatchEvent.pipelineCall k img s ∈ extra →
      k = n ∧ s = selectSeed inp.use_random_seed (inp.entropy n) inp.seed_input)
    (hv : bflag n = false ∨ extra = []) :
    BatchEventProps bflag inp (n + 1) E := by
  subst hE
  obtain ⟨hp, he, hs⟩ := h
  refine ⟨?_, ?_, ?_⟩
  · rw [batchPolls_append, hp]
    have hcons : batchPolls (BatchEvent.poll n v :: extra) = n :: batchPolls extra := by
      simp [batchPolls, List.filterMap_cons]
    rw [hcons, hpoll, List.range_succ]
  · intro e he' k hk
    rcases List.mem_append.mp he' with h1 | h2
    · obtain ⟨hf, hlt⟩ := he e h1 k hk
      exact ⟨hf, by omega⟩
    · rcases List.mem_cons.mp h2 with rfl | h3
      · simp [batchProcIdx] at hk
      · have hkn := heff e h3 k hk
        subst hkn
        rcases hv with hv | rfl
        · exact ⟨hv, by omega⟩
        · simp at h3
  · intro k img s hmem
    rcases List.mem_append.mp hmem with h1 | h2
    · exact hs k img s h1
    · rcases List.mem_cons.mp h2 with heq | h3
      · exact absurd heq (by simp)
      · obtain ⟨rfl, hseq⟩ := hseed k img s h3
        exact hseq

theorem batchLoop_props (bflag : ℕ → Bool) (inp : BatchInputs) :
    ∀ (imgs : List (List Char)) (k : ℕ) (written : List (List Char))
      (evs : List BatchEvent), BatchEventProps bflag inp k evs →
    ∃ n, BatchEventProps bflag inp n (batchLoop bflag inp imgs k written evs) := by
  intro imgs
  induction imgs with
  | nil =>
    intro k w evs h
    exact ⟨k, by rw [batchLoop]; exact h⟩
  | cons img rest ih =>
    intro k w evs h
    rw [batchLoop]
    by_cases hv : bflag k
    · rw [hv, if_pos rfl]
      exact ⟨k + 1, batchEventProps_step bflag inp k evs true [] _ (by simp) h rfl
        (by simp) (by simp) (Or.inr rfl)⟩
    · rw [Bool.not_eq_true] at hv
      rw [hv, if_neg (by simp)]
      by_cases hskip : inp.skip_overwrite = true ∧
          (inp.output_exists (batchOutName inp img) = true ∨ batchOutName inp img ∈ w)
      · rw [if_pos hskip]
        refine ih (k + 1) w _ ?_
        refine batchEventProps_step bflag inp k evs false [BatchEvent.skip k img] _
          (by simp) h (by simp [batchPolls]) ?_ (by simp) (Or.inl hv)
        intro e hme k' hk'
        have := List.mem_singleton.mp hme
        subst this
        simpa [batchProcIdx, eq_comm] using hk'
      · rw [if_neg hskip]
        by_cases hopen : inp.image_opens img = false
        · rw [if_pos hopen]
          refine ih (k + 1) w _ ?_
          refine batchEventProps_step bflag inp k evs false [BatchEvent.openFail k img] _
            (by simp) h (by simp [batchPolls]) ?_ (by simp) (Or.inl hv)
          intro e hme k' hk'
          have := List.mem_singleton.mp hme
          subst this
          simpa [batchProcIdx, eq_comm] using hk'
        · rw [if_neg hopen]
          refine ih (k + 1) _ _ ?_
          refine batchEventProps_step bflag inp k evs false
            ([BatchEvent.pipelineCall k img (selectSeed inp.use_random_seed
                (inp.entropy k) inp.seed_input),
              BatchEvent.saveVideo k img (batchOutName inp img)]
              ++ (if inp.auto_crop = true then
                [BatchEvent.savePre k img (osJoin "auto_pre_processed_images".data
                  (splitextStem img ++ ".png".data))] else [])
              ++ (if inp.save_prompt = true then
                [BatchEvent.saveText k img
                  (splitextStem (batchOutName inp img) ++ ".txt".data)] else [])
              ++ (if inp.pr_rife_enabled = true then
                [BatchEvent.saveVideo k img (osJoin inp.batch_output_folder
                  ("improved_".data ++ splitextStem img ++ ".mp4".data))] else []))
            _ (by simp) h ?_ ?_ ?_
            (Or.inl hv)
          · rw [batchPolls_append, batchPolls_append, batchPolls_append]
            refine List.append_eq_nil.mpr ⟨List.append_eq_nil.mpr
              ⟨List.append_eq_nil.mpr ⟨by simp [batchPolls], ?_⟩, ?_⟩, ?_⟩ <;>
              (split <;> simp [batchPolls])
          · intro e hme k' hk'
            rcases List.mem_append.mp hme with hA | h3
            · rcases List.mem_append.mp hA with hB | h2
              · rcases List.mem_append.mp hB with hC | h1
                · rcases List.mem_cons.mp hC with rfl | hC
                  · simpa [batchProcIdx, eq_comm] using hk'
                  · rcases List.mem_cons.mp hC with rfl | hC
                    · simpa [batchProcIdx, eq_comm] using hk'
                    · simp at hC
                · have h1' := List.mem_singleton.mp (mem_ite_nil h1)
                  subst h1'
                  simpa [batchProcIdx, eq_comm] using hk'
              · have h2' := List.mem_singleton.mp (mem_ite_nil h2)
                subst h2'
                simpa [batchProcIdx, eq_comm] using hk'
            · have h3' := List.mem_singleton.mp (mem_ite_nil h3)
              subst h3'
              simpa [batchProcIdx, eq_comm] using hk'
          · intro k' img' s hmem
            rcases List.mem_append.mp hmem with hA | h3
            · rcases List.mem_append.mp hA with hB | h2
              · rcases List.mem_append.mp hB with hC | h1
                · rcases List.mem_cons.mp hC with heq | hC
                  · injection heq with ha hb hc
                    exact ⟨ha, hc⟩
                  · rcases List.mem_cons.mp hC with heq | hC
                    · exact absurd heq (by simp)
                    · simp at hC
                · exact absurd (List.mem_singleton.mp (mem_ite_nil h1)) (by simp)
              · exact absurd (List.mem_singleton.mp (mem_ite_nil h2)) (by simp)
            · exact absurd (List.mem_singleton.mp (mem_ite_nil h3)) (by simp)

theorem batch_process_videos_props (g : AppGlobals) (bflag : ℕ → Bool)
    (inp : BatchInputs) :
    ∃ n, BatchEventProps bflag inp n (batch_process_videos g bflag inp).2.1 := by
  unfold batch_process_videos
  cases hbm : batchModel inp.model_choice_radio with
  | none =>
    refine ⟨0, by simp [BatchEventProps, batchPolls]⟩
  | some mc =>
    dsimp only
    have hinit : BatchEventProps bflag inp 0
        (if (ensurePipeline g (mkConfig mc inp.torch_dtype inp.num_persistent_input
            inp.lora_model inp.lora_alpha)).2 then
          [BatchEvent.loadPipe (mkConfig mc inp.torch_dtype inp.num_persistent_input
            inp.lora_model inp.lora_alpha)]
        else []) := by
      refine ⟨?_, ?_, ?_⟩
      · split <;> simp [batchPolls, List.filterMap_cons]
      · intro e he k hk
        split at he
        · have := List.mem_singleton.mp he
          subst this
          simp [batchProcIdx] at hk
        · simp at he
      · intro k img s hmem
        split at hmem
        · exact absurd (List.mem_singleton.mp hmem) (by simp)
        · simp at hmem
    by_cases hdir : inp.folder_isdir = false
    · rw [if_pos hdir]
      exact ⟨0, hinit⟩
    · rw [if_neg hdir]
      exact batchLoop_props bflag inp (batchImages inp.folderFiles) 0 [] _ hinit

theorem genIter_loadPipe (flag : ℕ → Bool) (inp : GenInputs) (mc : String)
    (ls : GenLoopState) (cfg : PipeConfig) :
    (GenEvent.loadPipe cfg ∈ genOutcomeEvents (genIter flag inp mc ls) ↔
      GenEvent.loadPipe cfg ∈ ls.events) := by
  unfold genIter
  by_cases hfv : flag ls.iter
  · rw [hfv]
    simp [genOutcomeEvents]
  · rw [Bool.not_eq_true] at hfv
    rw [hfv]
    split_ifs <;> simp [genOutcomeEvents]

theorem genInner_loadPipe (flag : ℕ → Bool) (inp : GenInputs) (mc : String)
    (cfg : PipeConfig) : ∀ (n : ℕ) (ls : GenLoopState),
    (GenEvent.loadPipe cfg ∈ genOutcomeEvents (genInner flag inp mc n ls) ↔
      GenEvent.loadPipe cfg ∈ ls.events) := by
  intro n
  induction n with
  | zero => intro ls; exact Iff.rfl
  | succ n ih =>
    intro ls
    have hbase := genIter_loadPipe flag inp mc ls cfg
    rw [genInner]
    cases hit : genIter flag inp mc ls with
    | done gg evs r =>
      rw [hit] at hbase
      exact hbase
    | next ls' =>
      rw [hit] at hbase
      exact (ih ls').trans hbase

theorem genOuter_loadPipe (flag : ℕ → Bool) (inp : GenInputs) (mc : String)
    (cfg : PipeConfig) : ∀ (ps : List (List Char)) (ls : GenLoopState),
    (GenEvent.loadPipe cfg ∈ genOutcomeEvents (genOuter flag inp mc ps ls) ↔
      GenEvent.loadPipe cfg ∈ ls.events) := by
  intro ps
  induction ps with
  | nil => intro ls; exact Iff.rfl
  | cons p rest ih =>
    intro ls
    have hbase := genInner_loadPipe flag inp mc cfg inp.num_generations ls
    rw [genOuter]
    cases hit : genInner flag inp mc inp.num_generations ls with
    | done gg evs r =>
      rw [hit] at hbase
      exact hbase
    | next ls' =>
      rw [hit] at hbase
      exact (ih ls').trans hbase

theorem batchLoop_loadPipe (bflag : ℕ → Bool) (inp : BatchInputs)
    (cfg : PipeConfig) : ∀ (imgs : List (List Char)) (k : ℕ)
      (w : List (List Char)) (evs : List BatchEvent),
    (BatchEvent.loadPipe cfg ∈ batchLoop bflag inp imgs k w evs ↔
      BatchEvent.loadPipe cfg ∈ evs) := by
  intro imgs
  induction imgs with
  | nil => intro k w evs; rw [batchLoop]
  | cons img rest ih =>
    intro k w evs
    rw [batchLoop]
    by_cases hv : bflag k
    · rw [hv, if_pos rfl]
      simp
    · rw [Bool.not_eq_true] at hv
      rw [hv, if_neg (by simp)]
      by_cases hskip : inp.skip_overwrite = true ∧
          (inp.output_exists (batchOutName inp img) = true ∨ batchOutName inp img ∈ w)
      · rw [if_pos hskip, ih]
        simp
      · rw [if_neg hskip]
        by_cases hopen : inp.image_opens img = false
        · rw [if_pos hopen, ih]
          simp
        · rw [if_neg hopen, ih]
          split_ifs <;> simp

theorem ensurePipeline_invoked (g : AppGlobals) (cfg : PipeConfig) :
    (ensurePipeline g cfg).2 = true ↔
      (g.loaded_pipeline = none ∨ g.loaded_pipeline_config ≠ some cfg) := by
  unfold ensurePipeline
  split_ifs with h <;> simp [h]

theorem ensurePipeline_cached (g : AppGlobals) (cfg : PipeConfig)
    (h : (ensurePipeline g cfg).2 = false) : (ensurePipeline g cfg).1 = g := by
  unfold ensurePipeline at *
  split_ifs at h ⊢
  rfl

theorem ensurePipeline_loaded (g : AppGlobals) (cfg : PipeConfig) :
    (ensurePipeline g cfg).1.loaded_pipeline ≠ none := by
  unfold ensurePipeline
  split_ifs with h
  · simp
  · push_neg at h
    exact h.1

theorem pyInt_of_strip_empty {s : List Char} (h : pyStrip s = []) :
    pyInt s = none := by
  unfold pyInt
  rw [h]
  rfl

theorem genIter_image_error (flag : ℕ → Bool) (inp : GenInputs) (mc : String)
    (ls : GenLoopState)
    (himg : mc = "14B_image_720p" ∨ mc = "14B_image_480p")
    (hni : inp.input_image = false) (hv : flag ls.iter = false) :
    genIter flag inp mc ls = GenOutcome.done ⟨none, none⟩
      (ls.events ++ [GenEvent.poll ls.iter false])
      ⟨[], "[CMD] Error: Image model selected but no image provided.",
        some (selectSeed inp.use_random_seed (inp.entropy ls.iter)
          inp.seed_input)⟩ := by
  unfold genIter
  rw [hv, if_neg (by simp)]
  rw [if_neg (by rcases himg with rfl | rfl <;> simp)]
  rw [if_pos himg, if_pos hni]

theorem batchLoop_skip_inv (bflag : ℕ → Bool) (inp : BatchInputs)
    (img : List Char) (hskip : inp.skip_overwrite = true)
    (hex : inp.output_exists (batchOutName inp img) = true) :
    ∀ (imgs : List (List Char)) (k : ℕ) (w : List (List Char))
      (evs : List BatchEvent), (∀ e ∈ evs, NotImgEvent img e) →
    ∀ e ∈ batchLoop bflag inp imgs k w evs, NotImgEvent img e := by
  intro imgs
  induction imgs with
  | nil =>
    intro k w evs h
    rw [batchLoop]
    exact h
  | cons img' rest ih =>
    intro k w evs h
    rw [batchLoop]
    by_cases hv : bflag k
    · rw [hv, if_pos rfl]
      intro e he
      rcases List.mem_append.mp he with h1 | h2
      · exact h e h1
      · have := List.mem_singleton.mp h2
        subst this
        exact ⟨by simp, by simp, by simp, by simp⟩
    · rw [Bool.not_eq_true] at hv
      rw [hv, if_neg (by simp)]
      by_cases hsk : inp.skip_overwrite = true ∧
          (inp.output_exists (batchOutName inp img') = true ∨ batchOutName inp img' ∈ w)
      · rw [if_pos hsk]
        refine ih (k + 1) w _ ?_
        intro e he
        rcases List.mem_append.mp he with h1 | h2
        · rcases List.mem_append.mp h1 with h1 | h1
          · exact h e h1
          · have := List.mem_singleton.mp h1
            subst this
            exact ⟨by simp, by simp, by simp, by simp⟩
        · have := List.mem_singleton.mp h2
          subst this
          exact ⟨by simp, by simp, by simp, by simp⟩
      · rw [if_neg hsk]
        have himg : img' ≠ img := by
          intro hcontra
          exact hsk ⟨hskip, Or.inl (by rw [hcontra]; exact hex)⟩
        by_cases hopen : inp.image_opens img' = false
        · rw [if_pos hopen]
          refine ih (k + 1) w _ ?_
          intro e he
          rcases List.mem_append.mp he with h1 | h2
          · rcases List.mem_append.mp h1 with h1 | h1
            · exact h e h1
            · have := List.mem_singleton.mp h1
              subst this
              exact ⟨by simp, by simp, by simp, by simp⟩
          · have := List.mem_singleton.mp h2
            subst this
            exact ⟨by simp, by simp, by simp, by simp⟩
        · rw [if_neg hopen]
          refine ih (k + 1) _ _ ?_
          intro e he
          rcases List.mem_append.mp he with h1 | h2
          · rcases List.mem_append.mp h1 with h1 | h1
            · exact h e h1
            · have := List.mem_singleton.mp h1
              subst this
              exact ⟨by simp, by simp, by simp, by simp⟩
          · rcases List.mem_append.mp h2 with hA | h3
            · rcases List.mem_append.mp hA with hB | h4
              · rcases List.mem_append.mp hB with hC | h5
                · rcases List.mem_cons.mp hC with rfl | hC
                  · simp [NotImgEvent, himg]
                  · rcases List.mem_cons.mp hC with rfl | hC
                    · simp [NotImgEvent, himg]
                    · simp at hC
                · have := List.mem_singleton.mp (mem_ite_nil h5)
                  subst this
                  simp [NotImgEvent, himg]
              · have := List.mem_singleton.mp (mem_ite_nil h4)
                subst this
                simp [NotImgEvent, himg]
            · have := List.mem_singleton.mp (mem_ite_nil h3)
              subst this
              simp [NotImgEvent, himg]

/-! ## Claim theorems -/

/-- C1: `auto_crop_image` first center-crops to the target aspect ratio —
cropping only left/right, symmetrically to within integer division, when
`w/h` exceeds `tw/th`; only top/bottom, symmetrically, when `w/h` is below
it; not at all when the ratios agree — and then resizes, so the result has
dimensions exactly `(target_width, target_height)`. -/
theorem auto_crop_image_spec (w h tw th : ℕ)
    (hw : 0 < w) (hh : 0 < h) (htw : 0 < tw) (hth : 0 < th) :
    auto_crop_image w h tw th = (tw, th) ∧
    (w * th = tw * h → cropBox w h tw th = (0, 0, w, h)) ∧
    (w * th > tw * h →
      let nw := h * tw / th
      let left := (w - nw) / 2
      cropBox w h tw th = (left, 0, left + nw, h) ∧
      left + nw ≤ w ∧
      (w - (left + nw) = left ∨ w - (left + nw) = left + 1)) ∧
    (w * th < tw * h →
      let nh := w * th / tw
      let top := (h - nh) / 2
      cropBox w h tw th = (0, top, w, top + nh) ∧
      top + nh ≤ h ∧
      (h - (top + nh) = top ∨ h - (top + nh) = top + 1)) := by
  refine ⟨rfl, ?_, ?_, ?_⟩
  · intro heq
    simp [cropBox, heq]
  · intro hgt
    have hnw : h * tw / th < w := (Nat.div_lt_iff_lt_mul hth).mpr (by nlinarith)
    simp only [cropBox, if_pos hgt]
    exact ⟨trivial, by omega, by omega⟩
  · intro hlt
    have hgt' : ¬ (w * th > tw * h) := by omega
    have hnh : w * th / tw < h := (Nat.div_lt_iff_lt_mul htw).mpr (by nlinarith)
    simp only [cropBox, if_neg hgt', if_pos hlt]
    exact ⟨trivial, by omega, by omega⟩

/-- Witness for `auto_crop_image_spec` at a concrete wide image. -/
theorem auto_crop_image_spec_witness :
    auto_crop_image 100 50 16 9 = (16, 9) :=
  (auto_crop_image_spec 100 50 16 9 (by decide) (by decide) (by decide) (by decide)).1

/-- C7: for each recognized model identifier and each of the ten VRAM
presets, `update_vram_and_resolution` returns exactly the numeric string of
that model's fixed mapping table, the aspect-ratio key list of the
dictionary associated with that model (`ASPECT_RATIOS_1_3b` for the 1.3B
and 14B-480P-image models, `ASPECT_RATIOS_14b` otherwise), and default
aspect `"16:9"`; for every preset outside the mapping it returns
`"12000000000"`. -/
theorem update_vram_and_resolution_spec :
    (vramMap_1_3b.map Prod.fst = vramPresets ∧
     vramMap_14b_text.map Prod.fst = vramPresets ∧
     vramMap_14b_720p.map Prod.fst = vramPresets ∧
     vramMap_14b_480p.map Prod.fst = vramPresets) ∧
    (∀ e ∈ vramMap_1_3b,
      update_vram_and_resolution "WAN 2.1 1.3B (Text/Video-to-Video)" e.1
        = (e.2, ASPECT_RATIOS_1_3b.map Prod.fst, "16:9")) ∧
    (∀ e ∈ vramMap_14b_text,
      update_vram_and_resolution "WAN 2.1 14B Text-to-Video" e.1
        = (e.2, ASPECT_RATIOS_14b.map Prod.fst, "16:9")) ∧
    (∀ e ∈ vramMap_14b_720p,
      update_vram_and_resolution "WAN 2.1 14B Image-to-Video 720P" e.1
        = (e.2, ASPECT_RATIOS_14b.map Prod.fst, "16:9")) ∧
    (∀ e ∈ vramMap_14b_480p,
      update_vram_and_resolution "WAN 2.1 14B Image-to-Video 480P" e.1
        = (e.2, ASPECT_RATIOS_1_3b.map Prod.fst, "16:9")) ∧
    (∀ p, p ∉ vramPresets → ∀ m ∈ modelChoices,
      (update_vram_and_resolution m p).1 = "12000000000") := by
  refine ⟨by decide, by decide, by decide, by decide, by decide, ?_⟩
  intro p hp m hm
  simp only [vramPresets, List.mem_cons, List.not_mem_nil, or_false] at hp
  push_neg at hp
  obtain ⟨h1, h2, h3, h4, h5, h6, h7, h8, h9, h10⟩ := hp
  simp only [modelChoices, List.mem_cons, List.not_mem_nil, or_false] at hm
  rcases hm with rfl | rfl | rfl | rfl <;>
    simp [update_vram_and_resolution, vramMap_1_3b, vramMap_14b_text,
      vramMap_14b_720p, vramMap_14b_480p, List.lookup,
      beq_eq_false_iff_ne.mpr h1, beq_eq_false_iff_ne.mpr h2,
      beq_eq_false_iff_ne.mpr h3, beq_eq_false_iff_ne.mpr h4,
      beq_eq_false_iff_ne.mpr h5, beq_eq_false_iff_ne.mpr h6,
      beq_eq_false_iff_ne.mpr h7, beq_eq_false_iff_ne.mpr h8,
      beq_eq_false_iff_ne.mpr h9, beq_eq_false_iff_ne.mpr h10]

theorem cropLoop_length (fr : ℕ × ℕ) : ∀ b a, (cropLoop fr b a).length = min b a := by
  intro b
  induction b with
  | zero => intro a; simp [cropLoop]
  | succ b ih =>
    intro a
    cases a with
    | zero => simp [cropLoop]
    | succ a =>
      rw [cropLoop, List.length_cons, ih a]
      omega

theorem cropLoop_mem (fr : ℕ × ℕ) : ∀ b a, ∀ x ∈ cropLoop fr b a, x = fr := by
  intro b
  induction b with
  | zero => intro a x hx; simp [cropLoop] at hx
  | succ b ih =>
    intro a x hx
    cases a with
    | zero => simp [cropLoop] at hx
    | succ a =>
      rw [cropLoop] at hx
      rcases List.mem_cons.mp hx with rfl | hx
      · rfl
      · exact ih a x hx

theorem processFrameDims_target (ow oh tw th : ℕ)
    (how : 0 < ow) (hoh : 0 < oh) (htw : 0 < tw) (hth : 0 < th) :
    processFrameDims tw th (videoScale ow oh tw th)
      (scaledWidth ow oh tw th) (scaledHeight ow oh tw th) ow oh = (tw, th) := by
  have how' : (0 : ℚ) < ow := by exact_mod_cast how
  have hoh' : (0 : ℚ) < oh := by exact_mod_cast hoh
  by_cases hs : videoScale ow oh tw th < 1
  · have h1 : videoScale ow oh tw th ≤ (tw : ℚ) / ow :=
      le_trans (min_le_right _ _) (min_le_left _ _)
    have h2 : videoScale ow oh tw th ≤ (th : ℚ) / oh :=
      le_trans (min_le_right _ _) (min_le_right _ _)
    have hwle : scaledWidth ow oh tw th ≤ tw := by
      unfold scaledWidth
      rw [Int.toNat_le]
      calc ⌊(ow : ℚ) * videoScale ow oh tw th⌋
          ≤ ⌊(tw : ℚ)⌋ := Int.floor_le_floor (by
            calc (ow : ℚ) * videoScale ow oh tw th
                ≤ (ow : ℚ) * ((tw : ℚ) / ow) :=
                  mul_le_mul_of_nonneg_left h1 (le_of_lt how')
              _ = tw := by field_simp)
        _ = (tw : ℤ) := Int.floor_natCast tw
    have hhle : scaledHeight ow oh tw th ≤ th := by
      unfold scaledHeight
      rw [Int.toNat_le]
      calc ⌊(oh : ℚ) * videoScale ow oh tw th⌋
          ≤ ⌊(th : ℚ)⌋ := Int.floor_le_floor (by
            calc (oh : ℚ) * videoScale ow oh tw th
                ≤ (oh : ℚ) * ((th : ℚ) / oh) :=
                  mul_le_mul_of_nonneg_left h2 (le_of_lt hoh')
              _ = th := by field_simp)
        _ = (th : ℤ) := Int.floor_natCast th
    unfold processFrameDims
    simp only [if_pos hs]
    rw [if_neg (by omega)]
  · have hmin : 1 ≤ min ((tw : ℚ) / ow) ((th : ℚ) / oh) :=
      (le_min_iff.mp (not_lt.mp hs)).2
    have howle : ow ≤ tw := by
      have := (one_le_div how').mp (le_trans hmin (min_le_left _ _))
      exact_mod_cast this
    have hohle : oh ≤ th := by
      have := (one_le_div hoh').mp (le_trans hmin (min_le_right _ _))
      exact_mod_cast this
    unfold processFrameDims
    simp only [if_neg hs]
    rw [if_neg (by omega)]

/-- C6: for every readable video and positive dimensions, `auto_crop_video`
writes `min desired_frame_count frames` frames (at most the requested
count, fewer only when the source runs out), every written frame is exactly
`(target_width, target_height)`, the output FPS is `desired_fps`, and the
output path is the input path's stem with a `_cropped` suffix and `.mp4`
extension; an unopenable video returns the original path with nothing
written. -/
theorem auto_crop_video_spec (m : VideoMeta) (path : List Char)
    (tw th dfc : ℕ) (dfps : ℚ)
    (how : 0 < m.width) (hoh : 0 < m.height) (htw : 0 < tw) (hth : 0 < th) :
    ((auto_crop_video (some m) path tw th dfc dfps).1
        = splitextStem path ++ "_cropped.mp4".data ∧
      ∃ frames, (auto_crop_video (some m) path tw th dfc dfps).2
          = some (dfps, frames) ∧
        frames.length = min dfc m.frames ∧
        ∀ fr ∈ frames, fr = (tw, th)) ∧
    (∀ p', auto_crop_video none p' tw th dfc dfps = (p', none)) := by
  refine ⟨⟨rfl, ?_⟩, fun p' => rfl⟩
  refine ⟨cropLoop (processFrameDims tw th (videoScale m.width m.height tw th)
    (scaledWidth m.width m.height tw th) (scaledHeight m.width m.height tw th)
    m.width m.height) dfc m.frames, rfl, cropLoop_length _ _ _, ?_⟩
  intro fr hfr
  rw [cropLoop_mem _ _ _ _ hfr]
  exact processFrameDims_target m.width m.height tw th how hoh htw hth

/-- Witness for `auto_crop_video_spec` at a concrete 1080p video cropped to
832×480. -/
theorem auto_crop_video_spec_witness :
    (auto_crop_video (some ⟨1920, 1080, 30, 100⟩) "video.mp4".data
        832 480 81 16).1
      = splitextStem "video.mp4".data ++ "_cropped.mp4".data :=
  (auto_crop_video_spec ⟨1920, 1080, 30, 100⟩ "video.mp4".data 832 480 81 16
    (by decide) (by decide) (by decide) (by decide)).1.1

/-- C4: `get_next_filename(extension)` returns a path in the outputs
directory whose stem is the five-digit zero-padded decimal of `n + 1`, where
`n` is the maximum integer stem among existing files with that extension
(non-integer stems ignored) and `n = 0` when no such file exists; the
returned name never equals an existing integer-named file of that
extension. -/
theorem get_next_filename_spec (extension e : List Char)
    (files : List (List Char))
    (hext : extension = '.' :: e) (he_dot : '.' ∉ e) (he_slash : '/' ∉ e) :
    get_next_filename extension files
      = "outputs/".data
          ++ format5 (pyMaxD (currentNumbers extension files) 0 + 1)
          ++ extension ∧
    splitextStem (nextBasename extension files)
      = format5 (pyMaxD (currentNumbers extension files) 0 + 1) ∧
    pyInt (splitextStem (nextBasename extension files))
      = some (pyMaxD (currentNumbers extension files) 0 + 1) ∧
    (currentNumbers extension files = [] → nextNumber extension files = 1) ∧
    (∀ f ∈ files, extension.isSuffixOf f = true →
      ∀ m : ℤ, pyInt (splitextStem f) = some m →
        nextBasename extension files ≠ f) := by
  subst hext
  have hdot : '.' ∉ format5 (nextNumber ('.' :: e) files) := by
    intro hmem
    rcases format5_chars _ '.' hmem with h | h <;> exact absurd h (by decide)
  have hslash : '/' ∉ format5 (nextNumber ('.' :: e) files) := by
    intro hmem
    rcases format5_chars _ '/' hmem with h | h <;> exact absurd h (by decide)
  have hstem : splitextStem (nextBasename ('.' :: e) files)
      = format5 (nextNumber ('.' :: e) files) := by
    unfold nextBasename
    exact splitextStem_append _ _ (format5_ne_nil _) hdot hslash he_dot he_slash
  refine ⟨rfl, hstem, ?_, ?_, ?_⟩
  · rw [hstem, pyInt_format5]
    rfl
  · intro hempty
    unfold nextNumber pyMaxD
    rw [hempty]
    rfl
  · intro f hf hsuf m hm heq
    have hmem : m ∈ currentNumbers ('.' :: e) files := by
      unfold currentNumbers
      exact List.mem_filterMap.mpr ⟨f, List.mem_filter.mpr ⟨hf, hsuf⟩, hm⟩
    have hle : m ≤ pyMaxD (currentNumbers ('.' :: e) files) 0 := le_pyMaxD hmem 0
    rw [← heq, hstem, pyInt_format5] at hm
    have hNm : nextNumber ('.' :: e) files = m := Option.some.inj hm
    have : nextNumber ('.' :: e) files = pyMaxD (currentNumbers ('.' :: e) files) 0 + 1 := rfl
    omega

/-- Witness for `get_next_filename_spec`: with `00007.mp4` present, the next
name is fresh. -/
theorem get_next_filename_spec_witness :
    "00007.mp4".data ∈ ["00007.mp4".data] ∧
    nextBasename ".mp4".data ["00007.mp4".data] ≠ "00007.mp4".data :=
  ⟨by decide,
   (get_next_filename_spec ".mp4".data "mp4".data ["00007.mp4".data]
      rfl (by decide) (by decide)).2.2.2.2 "00007.mp4".data (by decide)
      (by decide) 7 (by decide)⟩

/-- Witness for `update_vram_and_resolution_spec`: a preset outside the
table falls back to `"12000000000"`, and a tabulated preset is returned
exactly. -/
theorem update_vram_and_resolution_spec_witness :
    (update_vram_and_resolution "WAN 2.1 1.3B (Text/Video-to-Video)" "5GB").1
      = "12000000000" ∧
    update_vram_and_resolution "WAN 2.1 14B Text-to-Video" "32GB"
      = ("6500000000", ASPECT_RATIOS_14b.map Prod.fst, "16:9") :=
  ⟨update_vram_and_resolution_spec.2.2.2.2.2 "5GB" (by decide)
      "WAN 2.1 1.3B (Text/Video-to-Video)" (by decide),
   update_vram_and_resolution_spec.2.2.1 ("32GB", "6500000000") (by decide)⟩

/-- C2: in `generate_videos` the cancel flag is polled exactly once per
loop iteration, at its start (the polls of a run are exactly `0, …, P-1`
in order); every per-iteration effect (video generation, save, sidecar
write) happens at an iteration whose poll read `false`, so once the
monotone flag is set no further video is generated or saved, and a run
that observes the flag returns the empty video path.
`batch_process_videos` polls `cancel_batch_flag` once at the start of each
image iteration and processes no further images once it is set. -/
theorem cancellation_spec (g g2 : AppGlobals) (flag bflag : ℕ → Bool)
    (inp : GenInputs) (binp : BatchInputs) (files : List (List Char))
    (hmono : ∀ i j, i ≤ j → flag i = true → flag j = true)
    (hbmono : ∀ i j, i ≤ j → bflag i = true → bflag j = true) :
    (∃ P, genPolls (generate_videos g flag inp files).2.1 = List.range P) ∧
    (∀ j, flag j = true → ∀ e ∈ (generate_videos g flag inp files).2.1,
      ∀ k, genProcIdx e = some k → k < j) ∧
    ((∃ k, k < totalIterations inp ∧ flag k = true) →
      (generate_videos g flag inp files).2.2.video = []) ∧
    (∃ P, batchPolls (batch_process_videos g2 bflag binp).2.1 = List.range P) ∧
    (∀ j, bflag j = true → ∀ e ∈ (batch_process_videos g2 bflag binp).2.1,
      ∀ k, batchProcIdx e = some k → k < j) := by
  have hbatch := batch_process_videos_props g2 bflag binp
  obtain ⟨nb, hb1, hb2, hb3⟩ := hbatch
  cases hd : dispatchModel inp.model_choice_radio with
  | none =>
    have hval : generate_videos g flag inp files =
        (g, [], ⟨[], "Invalid model choice.", none⟩) := by
      unfold generate_videos
      rw [hd]
    rw [hval]
    refine ⟨⟨0, by simp [genPolls]⟩, by simp, fun _ => rfl, ⟨nb, hb1⟩, ?_⟩
    intro j hj e he k hk
    obtain ⟨hf, -⟩ := hb2 e he k hk
    by_contra hlt
    push_neg at hlt
    rw [hbmono j k hlt hj] at hf
    exact absurd hf (by simp)
  | some mc =>
    obtain ⟨hreset, ⟨m, hm1, hm2, hm3⟩, hdisj⟩ :=
      generate_videos_cases g flag inp files mc hd
    refine ⟨⟨m, hm1⟩, ?_, ?_, ⟨nb, hb1⟩, ?_⟩
    · intro j hj e he k hk
      obtain ⟨hf, -⟩ := hm2 e he k hk
      by_contra hlt
      push_neg at hlt
      rw [hmono j k hlt hj] at hf
      exact absurd hf (by simp)
    · rintro ⟨k, hk, hfk⟩
      rcases hdisj with hall | hvid
      · rw [hall k hk] at hfk
        exact absurd hfk (by simp)
      · exact hvid
    · intro j hj e he k hk
      obtain ⟨hf, -⟩ := hb2 e he k hk
      by_contra hlt
      push_neg at hlt
      rw [hbmono j k hlt hj] at hf
      exact absurd hf (by simp)

/-- Witness for `cancellation_spec`: with the flag already set, a
single-iteration run returns the empty path. -/
theorem cancellation_spec_witness :
    (generate_videos ⟨none, none⟩ (fun _ => true)
      ⟨"hi", false, 1, false, "", fun _ => 0, "WAN 2.1 14B Text-to-Video",
        "0", "torch.bfloat16", false, false, true, false, false, "None", 1⟩
      []).2.2.video = [] :=
  (cancellation_spec ⟨none, none⟩ ⟨none, none⟩ (fun _ => true) (fun _ => true)
    ⟨"hi", false, 1, false, "", fun _ => 0, "WAN 2.1 14B Text-to-Video",
      "0", "torch.bfloat16", false, false, true, false, false, "None", 1⟩
    ⟨"", false, [], [], fun _ => false, fun _ => none, fun _ => true, true,
      false, "", fun _ => 0, "WAN 2.1 14B Image-to-Video 720P", "12000000000",
      "torch.bfloat16", true, true, false, "None", 1⟩
    [] (fun _ _ _ h => h) (fun _ _ _ h => h)).2.2.1 ⟨0, by decide, rfl⟩

/-- C3: `load_wan_pipeline` is invoked in a call of `generate_videos` or
`batch_process_videos` if and only if no pipeline is loaded or the current
configuration record differs from the cached one; when the configuration
is unchanged and a pipeline is loaded, nothing is recomputed (the globals
are returned untouched by the cache check). -/
theorem pipeline_cache_spec (g g2 : AppGlobals) (flag bflag : ℕ → Bool)
    (inp : GenInputs) (binp : BatchInputs) (files : List (List Char))
    (mc mcb : String)
    (hmc : dispatchModel inp.model_choice_radio = some mc)
    (hmcb : batchModel binp.model_choice_radio = some mcb) :
    (∀ (g' : AppGlobals) (cfg : PipeConfig),
      ((ensurePipeline g' cfg).2 = true ↔
        (g'.loaded_pipeline = none ∨ g'.loaded_pipeline_config ≠ some cfg)) ∧
      ((ensurePipeline g' cfg).2 = false → (ensurePipeline g' cfg).1 = g')) ∧
    (GenEvent.loadPipe (mkConfig mc inp.torch_dtype inp.num_persistent_input
        inp.lora_model inp.lora_alpha) ∈ (generate_videos g flag inp files).2.1 ↔
      (g.loaded_pipeline = none ∨ g.loaded_pipeline_config ≠
        some (mkConfig mc inp.torch_dtype inp.num_persistent_input
          inp.lora_model inp.lora_alpha))) ∧
    (BatchEvent.loadPipe (mkConfig mcb binp.torch_dtype binp.num_persistent_input
        binp.lora_model binp.lora_alpha) ∈
          (batch_process_videos g2 bflag binp).2.1 ↔
      (g2.loaded_pipeline = none ∨ g2.loaded_pipeline_config ≠
        some (mkConfig mcb binp.torch_dtype binp.num_persistent_input
          binp.lora_model binp.lora_alpha))) := by
  refine ⟨fun g' cfg => ⟨ensurePipeline_invoked g' cfg, ensurePipeline_cached g' cfg⟩,
    ?_, ?_⟩
  · rw [← ensurePipeline_invoked]
    unfold generate_videos
    rw [hmc]
    dsimp only
    cases hit : genOuter flag inp mc (promptsList inp.multi_line inp.prompt)
        ⟨0, [], [], none, files,
          if (ensurePipeline g (mkConfig mc inp.torch_dtype
              inp.num_persistent_input inp.lora_model inp.lora_alpha)).2 then
            [GenEvent.loadPipe (mkConfig mc inp.torch_dtype
              inp.num_persistent_input inp.lora_model inp.lora_alpha)]
          else []⟩ with
    | done gg evs r =>
      dsimp only
      have hmem := genOuter_loadPipe flag inp mc (mkConfig mc inp.torch_dtype
        inp.num_persistent_input inp.lora_model inp.lora_alpha)
        (promptsList inp.multi_line inp.prompt)
        ⟨0, [], [], none, files,
          if (ensurePipeline g (mkConfig mc inp.torch_dtype
              inp.num_persistent_input inp.lora_model inp.lora_alpha)).2 then
            [GenEvent.loadPipe (mkConfig mc inp.torch_dtype
              inp.num_persistent_input inp.lora_model inp.lora_alpha)]
          else []⟩
      rw [hit] at hmem
      dsimp only [genOutcomeEvents] at hmem
      refine hmem.trans ?_
      split_ifs with h2 <;> simp [h2]
    | next ls' =>
      dsimp only
      have hmem := genOuter_loadPipe flag inp mc (mkConfig mc inp.torch_dtype
        inp.num_persistent_input inp.lora_model inp.lora_alpha)
        (promptsList inp.multi_line inp.prompt)
        ⟨0, [], [], none, files,
          if (ensurePipeline g (mkConfig mc inp.torch_dtype
              inp.num_persistent_input inp.lora_model inp.lora_alpha)).2 then
            [GenEvent.loadPipe (mkConfig mc inp.torch_dtype
              inp.num_persistent_input inp.lora_model inp.lora_alpha)]
          else []⟩
      rw [hit] at hmem
      dsimp only [genOutcomeEvents] at hmem
      refine hmem.trans ?_
      split_ifs with h2 <;> simp [h2]
  · rw [← ensurePipeline_invoked]
    unfold batch_process_videos
    rw [hmcb]
    dsimp only
    by_cases hdir : binp.folder_isdir = false
    · rw [if_pos hdir]
      dsimp only
      split_ifs with h2 <;> simp [h2]
    · rw [if_neg hdir]
      dsimp only
      rw [batchLoop_loadPipe]
      split_ifs with h2 <;> simp [h2]

/-- Witness for `pipeline_cache_spec`: with nothing loaded, the pipeline is
(re)built. -/
theorem pipeline_cache_spec_witness :
    (ensurePipeline ⟨none, none⟩
      (mkConfig "14B_text" "torch.bfloat16" "0" "None" 1)).2 = true :=
  ((pipeline_cache_spec ⟨none, none⟩ ⟨none, none⟩ (fun _ => false)
      (fun _ => false)
      ⟨"hi", false, 1, false, "", fun _ => 0, "WAN 2.1 14B Text-to-Video",
        "0", "torch.bfloat16", false, false, true, false, false, "None", 1⟩
      ⟨"", false, [], [], fun _ => false, fun _ => none, fun _ => true, true,
        false, "", fun _ => 0, "WAN 2.1 14B Image-to-Video 720P",
        "12000000000", "torch.bfloat16", true, true, false, "None", 1⟩
      [] "14B_text" "14B_image_720p" (by decide) (by decide)).1
    ⟨none, none⟩ (mkConfig "14B_text" "torch.bfloat16" "0" "None" 1)).1.mpr
    (Or.inl rfl)

/-- C5: every detected error in `generate_videos` prints and returns early
with an empty video path: an unrecognized model choice returns
`("", "Invalid model choice.", "")` before touching anything; an
image-to-video model with no input image returns the empty path with the
image-error message; the invalid-combination branch of the dispatch chain
likewise ends the iteration with an empty path.  No error path raises or
retries (the model is total and returns plain values). -/
theorem error_return_spec (g : AppGlobals) (flag : ℕ → Bool) (inp : GenInputs)
    (files : List (List Char)) :
    (dispatchModel inp.model_choice_radio = none →
      generate_videos g flag inp files =
        (g, [], ⟨[], "Invalid model choice.", none⟩)) ∧
    (∀ mc, dispatchModel inp.model_choice_radio = some mc →
      (mc = "14B_image_720p" ∨ mc = "14B_image_480p") →
      inp.input_image = false → flag 0 = false → 0 < inp.num_generations →
      promptsList inp.multi_line inp.prompt ≠ [] →
      (generate_videos g flag inp files).2.2 =
        ⟨[], "[CMD] Error: Image model selected but no image provided.",
          some (selectSeed inp.use_random_seed (inp.entropy 0)
            inp.seed_input)⟩) ∧
    (∀ mc ls, mc ≠ "1.3B" → mc ≠ "14B_text" → mc ≠ "14B_image_720p" →
      mc ≠ "14B_image_480p" → flag ls.iter = false →
      genIter flag inp mc ls = GenOutcome.done ⟨none, none⟩
        (ls.events ++ [GenEvent.poll ls.iter false])
        ⟨[], "[CMD] Invalid combination of inputs.",
          some (selectSeed inp.use_random_seed (inp.entropy ls.iter)
            inp.seed_input)⟩) := by
  refine ⟨?_, ?_, ?_⟩
  · intro hd
    unfold generate_videos
    rw [hd]
  · intro mc hmc himg hni hf0 hpos hne
    obtain ⟨p, ps, hps⟩ := List.exists_cons_of_ne_nil hne
    obtain ⟨n, hn⟩ : ∃ n, inp.num_generations = n + 1 :=
      ⟨inp.num_generations - 1, by omega⟩
    unfold generate_videos
    rw [hmc]
    dsimp only
    rw [hps, genOuter, hn, genInner,
      genIter_image_error flag inp mc _ himg hni hf0]
  · intro mc ls h1 h2 h3 h4 hv
    unfold genIter
    rw [hv, if_neg (by simp)]
    rw [if_neg (by simp [h1, h2]), if_neg (by simp [h3, h4])]

/-- Witness for `error_return_spec`: an unrecognized model choice returns
the empty path and the error message. -/
theorem error_return_spec_witness :
    generate_videos ⟨none, none⟩ (fun _ => false)
      ⟨"hi", false, 1, false, "", fun _ => 0, "bogus model", "0",
        "torch.bfloat16", false, false, true, false, false, "None", 1⟩ []
      = (⟨none, none⟩, [], ⟨[], "Invalid model choice.", none⟩) :=
  (error_return_spec ⟨none, none⟩ (fun _ => false)
    ⟨"hi", false, 1, false, "", fun _ => 0, "bogus model", "0",
      "torch.bfloat16", false, false, true, false, false, "None", 1⟩ []).1
    (by decide)

/-- C8 (amended): `generate_videos` resets `loaded_pipeline` /
`loaded_pipeline_config` on every return path after the model dispatch
succeeds (cancellation, in-loop errors, normal completion), but its
invalid-model-choice return leaves the globals unchanged.
`batch_process_videos` resets them only when its image loop is reached:
the unsupported-model return leaves them unchanged, and the
missing-input-folder return happens after the pipeline (re)load and leaves
a loaded pipeline cached. -/
theorem globals_reset_spec (g g2 : AppGlobals) (flag bflag : ℕ → Bool)
    (inp : GenInputs) (binp : BatchInputs) (files : List (List Char)) :
    ((∃ mc, dispatchModel inp.model_choice_radio = some mc) →
      (generate_videos g flag inp files).1 = ⟨none, none⟩) ∧
    (dispatchModel inp.model_choice_radio = none →
      (generate_videos g flag inp files).1 = g) ∧
    (batchModel binp.model_choice_radio = none →
      (batch_process_videos g2 bflag binp).1 = g2) ∧
    (∀ mcb, batchModel binp.model_choice_radio = some mcb →
      binp.folder_isdir = false →
      (batch_process_videos g2 bflag binp).1 =
        (ensurePipeline g2 (mkConfig mcb binp.torch_dtype
          binp.num_persistent_input binp.lora_model binp.lora_alpha)).1 ∧
      (batch_process_videos g2 bflag binp).1.loaded_pipeline ≠ none) ∧
    (∀ mcb, batchModel binp.model_choice_radio = some mcb →
      binp.folder_isdir ≠ false →
      (batch_process_videos g2 bflag binp).1 = ⟨none, none⟩) := by
  refine ⟨?_, ?_, ?_, ?_, ?_⟩
  · rintro ⟨mc, hmc⟩
    exact (generate_videos_cases g flag inp files mc hmc).1
  · intro hd
    unfold generate_videos
    rw [hd]
  · intro hb
    unfold batch_process_videos
    rw [hb]
  · intro mcb hb hdir
    unfold batch_process_videos
    rw [hb]
    dsimp only
    rw [if_pos hdir]
    exact ⟨rfl, ensurePipeline_loaded _ _⟩
  · intro mcb hb hdir
    unfold batch_process_videos
    rw [hb]
    dsimp only
    rw [if_neg hdir]

/-- Witness for `globals_reset_spec`: a batch run that reaches its loop
leaves the globals reset. -/
theorem globals_reset_spec_witness :
    (batch_process_videos ⟨none, none⟩ (fun _ => false)
      ⟨"", true, [], "out".data, fun _ => false, fun _ => none,
        fun _ => true, true, false, "", fun _ => 0,
        "WAN 2.1 14B Image-to-Video 720P", "12000000000", "torch.bfloat16",
        true, true, false, "None", 1⟩).1 = ⟨none, none⟩ :=
  (globals_reset_spec ⟨none, none⟩ ⟨none, none⟩ (fun _ => false)
    (fun _ => false)
    ⟨"hi", false, 1, false, "", fun _ => 0, "WAN 2.1 14B Text-to-Video",
      "0", "torch.bfloat16", false, false, true, false, false, "None", 1⟩
    ⟨"", true, [], "out".data, fun _ => false, fun _ => none,
      fun _ => true, true, false, "", fun _ => 0,
      "WAN 2.1 14B Image-to-Video 720P", "12000000000", "torch.bfloat16",
      true, true, false, "None", 1⟩ []).2.2.2.2 "14B_image_720p"
    (by decide) (by decide)

/-- Counterexample to C8 as stated: calling `batch_process_videos` with a
valid image model but a non-existent input folder returns after loading
the pipeline, leaving `loaded_pipeline` set — not every return path resets
the globals. -/
theorem globals_reset_counterexample :
    (batch_process_videos ⟨none, none⟩ (fun _ => false)
      ⟨"", false, [], [], fun _ => false, fun _ => none, fun _ => true, true,
        false, "", fun _ => 0, "WAN 2.1 14B Image-to-Video 720P",
        "12000000000", "torch.bfloat16", true, true, false, "None",
        1⟩).1.loaded_pipeline ≠ none := by
  decide

/-- C9: seed selection never raises: with `use_random_seed` the seed is
drawn from `0 … 2^32 - 1` inclusive; otherwise it is `int(seed_input)`
when the stripped input is non-empty and parseable, and `0` otherwise
(empty or unparseable).  Every generated video in `generate_videos` and
every pipeline call in `batch_process_videos` uses exactly this selection
on its own iteration's entropy. -/
theorem seed_selection_spec (g g2 : AppGlobals) (flag bflag : ℕ → Bool)
    (inp : GenInputs) (binp : BatchInputs) (files : List (List Char)) :
    (∀ entropy s, (0 : ℤ) ≤ selectSeed true entropy s ∧
      selectSeed true entropy s ≤ 2 ^ 32 - 1) ∧
    (∀ entropy s, pyStrip s.data = [] → selectSeed false entropy s = 0) ∧
    (∀ entropy s n, pyInt s.data = some n → selectSeed false entropy s = n) ∧
    (∀ entropy s, pyInt s.data = none → selectSeed false entropy s = 0) ∧
    (∀ e ∈ (generate_videos g flag inp files).2.1, ∀ k s,
      e = GenEvent.genVideo k s →
      s = selectSeed inp.use_random_seed (inp.entropy k) inp.seed_input) ∧
    (∀ e ∈ (batch_process_videos g2 bflag binp).2.1, ∀ k img s,
      e = BatchEvent.pipelineCall k img s →
      s = selectSeed binp.use_random_seed (binp.entropy k) binp.seed_input) := by
  refine ⟨?_, ?_, ?_, ?_, ?_, ?_⟩
  · intro entropy s
    unfold selectSeed pyRandint
    rw [if_pos rfl]
    constructor
    · exact_mod_cast Nat.zero_le _
    · have h : entropy % 2 ^ 32 < 2 ^ 32 := Nat.mod_lt _ (by norm_num)
      push_cast
      omega
  · intro entropy s h
    unfold selectSeed
    rw [if_neg (by simp), if_pos h]
  · intro entropy s n h
    have hne : pyStrip s.data ≠ [] := by
      intro hc
      rw [pyInt_of_strip_empty hc] at h
      exact Option.noConfusion h
    unfold selectSeed
    rw [if_neg (by simp), if_neg hne, h]
    rfl
  · intro entropy s h
    unfold selectSeed
    by_cases hs : pyStrip s.data = []
    · rw [if_neg (by simp), if_pos hs]
    · rw [if_neg (by simp), if_neg hs, h]
      rfl
  · intro e he k s heq
    subst heq
    cases hd : dispatchModel inp.model_choice_radio with
    | none =>
      have hval : generate_videos g flag inp files =
          (g, [], ⟨[], "Invalid model choice.", none⟩) := by
        unfold generate_videos
        rw [hd]
      rw [hval] at he
      simp at he
    | some mc =>
      obtain ⟨-, ⟨m, hm⟩, -⟩ := generate_videos_cases g flag inp files mc hd
      exact hm.2.2 k s he
  · intro e he k img s heq
    subst heq
    obtain ⟨nb, hb⟩ := batch_process_videos_props g2 bflag binp
    exact hb.2.2 k img s he

/-- Witness for `seed_selection_spec`: a parseable seed string is used as
given. -/
theorem seed_selection_spec_witness :
    selectSeed false 0 "42" = 42 :=
  (seed_selection_spec ⟨none, none⟩ ⟨none, none⟩ (fun _ => false)
    (fun _ => false)
    ⟨"hi", false, 1, false, "", fun _ => 0, "WAN 2.1 14B Text-to-Video",
      "0", "torch.bfloat16", false, false, true, false, false, "None", 1⟩
    ⟨"", false, [], [], fun _ => false, fun _ => none, fun _ => true, true,
      false, "", fun _ => 0, "WAN 2.1 14B Image-to-Video 720P",
      "12000000000", "torch.bfloat16", true, true, false, "None", 1⟩
    []).2.2.1 0 "42" 42 (by decide)

/-- C10: with `skip_overwrite`, an image whose batch output file already
exists is skipped: no event of the run invokes the pipeline on it, saves a
video for it, saves its preprocessed copy, or writes its sidecar text
file. -/
theorem skip_overwrite_spec (g : AppGlobals) (bflag : ℕ → Bool)
    (binp : BatchInputs) (img : List Char)
    (hskip : binp.skip_overwrite = true)
    (hex : binp.output_exists (batchOutName binp img) = true) :
    ∀ e ∈ (batch_process_videos g bflag binp).2.1, NotImgEvent img e := by
  unfold batch_process_videos
  cases hbm : batchModel binp.model_choice_radio with
  | none =>
    intro e he
    simp at he
  | some mc =>
    dsimp only
    by_cases hdir : binp.folder_isdir = false
    · rw [if_pos hdir]
      intro e he
      have hmem := mem_ite_nil he
      have := List.mem_singleton.mp hmem
      subst this
      simp [NotImgEvent]
    · rw [if_neg hdir]
      refine batchLoop_skip_inv bflag binp img hskip hex _ 0 [] _ ?_
      intro e he
      have hmem := mem_ite_nil he
      have := List.mem_singleton.mp hmem
      subst this
      simp [NotImgEvent]

/-- Witness for `skip_overwrite_spec`: the lone image of a batch whose
output already exists yields a skip event, which is not a processing
step. -/
theorem skip_overwrite_spec_witness :
    NotImgEvent "a.png".data (BatchEvent.skip 0 "a.png".data) :=
  skip_overwrite_spec ⟨none, none⟩ (fun _ => false)
    ⟨"", true, ["a.png".data], "out".data, fun _ => true, fun _ => none,
      fun _ => true, true, false, "", fun _ => 0,
      "WAN 2.1 14B Image-to-Video 720P", "12000000000", "torch.bfloat16",
      true, true, false, "None", 1⟩ "a.png".data rfl rfl
    (BatchEvent.skip 0 "a.png".data) (by decide)

end Wan
